import Mathlib

/-!
Verification of the binary world-file codec of the wldmania repository
(crates terraria-wld and wldmania).  The Rust source is shallowly embedded:
a file or byte stream is a `List Nat` of byte values, fallible reads return
`Except WldError`, machine integers are `Nat`/`Int` with explicit modular
reduction where overflow or truncation matters, and an f32 field that the
code only copies verbatim is modelled by its 32-bit pattern.  A Rust panic
(assert failure or Option unwrap on None) is modelled as the error `panic`.
`String::from_utf8_lossy` is the identity on the valid UTF-8 byte sequences
a Rust `String` always contains, so strings are modelled as their byte lists.
-/

set_option maxRecDepth 16384

/-- Errors of the embedded codec: end of stream, the format errors raised by
read_offsets and read_chests, the write_string length violation, and panic. -/
inductive WldError where
  | eof
  | notValidMap
  | unsupportedFiletype (t : Nat)
  | unsupportedNPointers (n : Int)
  | unsupportedItemsPerChest (n : Int)
  | encodingViolation
  | panic
  deriving DecidableEq

/-- Sequencing for reads: propagate the error, otherwise continue with the
value and the remaining stream (the embedding of the Rust question-mark). -/
def step {α β : Type} (r : Except WldError (α × List Nat)) (k : α → List Nat → Except WldError β) : Except WldError β :=
  match r with
  | .error e => .error e
  | .ok (a, s) => k a s

/-- Value of a little-endian byte list. -/
def leVal (bs : List Nat) : Nat := bs.foldr (fun b acc => b + 256 * acc) 0

/-- The `k` little-endian bytes of `n`. -/
def leBytes : Nat → Nat → List Nat
  | 0, _ => []
  | k + 1, n => n % 256 :: leBytes k (n / 256)

/-- Read exactly `n` bytes from the stream. -/
def readBytes : Nat → List Nat → Except WldError (List Nat × List Nat)
  | 0, s => .ok ([], s)
  | _ + 1, [] => .error .eof
  | n + 1, b :: rest => step (readBytes n rest) fun bs s => .ok (b :: bs, s)

/-- read_u8. -/
def readU8 (s : List Nat) : Except WldError (Nat × List Nat) :=
  match s with
  | [] => .error .eof
  | b :: rest => .ok (b, rest)

/-- Read a `k`-byte little-endian unsigned value. -/
def readLE (k : Nat) (s : List Nat) : Except WldError (Nat × List Nat) :=
  step (readBytes k s) fun bs rest => .ok (leVal bs, rest)

def readU16 (s : List Nat) : Except WldError (Nat × List Nat) := readLE 2 s

def readU32 (s : List Nat) : Except WldError (Nat × List Nat) := readLE 4 s

def readU64 (s : List Nat) : Except WldError (Nat × List Nat) := readLE 8 s

/-- An f32 is only ever copied verbatim by this code, so it is modelled as
its raw 32-bit pattern. -/
def readF32 (s : List Nat) : Except WldError (Nat × List Nat) := readLE 4 s

/-- Two's-complement view of a 16-bit pattern. -/
def asI16 (n : Nat) : Int :=
  if n % 65536 < 32768 then ((n % 65536 : Nat) : Int) else ((n % 65536 : Nat) : Int) - 65536

/-- Two's-complement view of a 32-bit pattern. -/
def asI32 (n : Nat) : Int :=
  if n % 4294967296 < 2147483648 then ((n % 4294967296 : Nat) : Int) else ((n % 4294967296 : Nat) : Int) - 4294967296

def readI16 (s : List Nat) : Except WldError (Int × List Nat) :=
  step (readU16 s) fun n rest => .ok (asI16 n, rest)

def readI32 (s : List Nat) : Except WldError (Int × List Nat) :=
  step (readU32 s) fun n rest => .ok (asI32 n, rest)

def encU16 (n : Nat) : List Nat := leBytes 2 n

def encU32 (n : Nat) : List Nat := leBytes 4 n

def encI16 (v : Int) : List Nat := leBytes 2 ((v % 65536)).toNat

def encI32 (v : Int) : List Nat := leBytes 4 ((v % 4294967296)).toNat

/-- read_string_len: the 7-bit continuation length decoder.  Note the Rust
applies wrapping_shl on a u8, so the shift is taken mod 8 and the shifted
segment is reduced mod 256 before being OR-ed in. -/
def read_string_len : List Nat → Nat → Nat → Except WldError (Nat × List Nat)
  | [], _, _ => .error .eof
  | b :: rest, shift, len =>
    let len2 := len ||| (((b &&& 127) <<< (shift % 8)) % 256)
    if b &&& 128 = 0 then .ok (len2, rest)
    else read_string_len rest (shift + 7) len2

/-- read_string: length then raw bytes (from_utf8_lossy is the identity on
the valid UTF-8 bytes a Rust String holds, so the bytes are kept as-is). -/
def read_string (s : List Nat) : Except WldError (List Nat × List Nat) :=
  step (read_string_len s 0 0) fun len rest => readBytes len rest

/-- write_string: the writer asserts the length is below 127 and then emits a
single length byte followed by the raw bytes.  The boolean is false when the
assert fails (a panic); the list is the byte output produced up to that point
(the assert precedes any write, so nothing is emitted on failure). -/
def write_string (name : List Nat) : List Nat × Bool :=
  if name.length < 127 then (name.length :: name, true) else ([], false)

/-- Item: stack plus id and prefix byte.  Fields use the Rust types: u16, i32
and u8 become Nat, Int, Nat with range constraints stated where needed. -/
structure Item where
  stack : Nat
  id : Int
  prefix_id : Nat
  deriving DecidableEq

/-- Item::write - the stack is always written, id and prefix only when the
stack is nonzero. -/
def Item.write (it : Item) : List Nat :=
  encU16 it.stack ++ (if it.stack ≠ 0 then encI32 it.id ++ [it.prefix_id] else [])

/-- Item::read - a zero stack yields Item::default() without reading id or
prefix. -/
def Item.read (s : List Nat) : Except WldError (Item × List Nat) :=
  step (readU16 s) fun stack s =>
  if stack = 0 then .ok (⟨0, 0, 0⟩, s) else
  step (readI32 s) fun id s =>
  step (readU8 s) fun p s =>
  .ok (⟨stack, id, p⟩, s)

/-- Read a fixed number of items (the 40-slot chest array). -/
def readItems : Nat → List Nat → Except WldError (List Item × List Nat)
  | 0, s => .ok ([], s)
  | n + 1, s =>
    step (Item.read s) fun it s =>
    step (readItems n s) fun its s =>
    .ok (it :: its, s)

/-- Chest: position, name and the 40 item slots.  The Rust array of length
CHEST_MAX_ITEMS is a list whose length is constrained to 40. -/
structure Chest where
  x : Nat
  y : Nat
  name : List Nat
  items : List Item
  deriving DecidableEq

/-- Chest::write.  The position is written before the name, so when the name
is over the length limit the panic in write_string happens after the eight
position bytes were emitted; the boolean records success. -/
def Chest.write (c : Chest) : List Nat × Bool :=
  match write_string c.name with
  | (nm, true) => (encI32 (c.x : Int) ++ encI32 (c.y : Int) ++ nm ++ (c.items.map Item.write).flatten, true)
  | (_, false) => (encI32 (c.x : Int) ++ encI32 (c.y : Int), false)

/-- Chest::read - the two i32 position fields are truncated to u16. -/
def Chest.read (s : List Nat) : Except WldError (Chest × List Nat) :=
  step (readI32 s) fun xi s =>
  step (readI32 s) fun yi s =>
  step (read_string s) fun nm s =>
  step (readItems 40 s) fun its s =>
  .ok (⟨((xi % 65536)).toNat, ((yi % 65536)).toNat, nm, its⟩, s)

/-- Validity of one item for the round trip: the Rust field ranges, plus the
normalisation that a zero-stack slot carries id 0 and prefix 0 (a zero stack
suppresses id and prefix on disk, so other values cannot survive). -/
def ItemValid (it : Item) : Prop :=
  it.stack < 65536 ∧ -2147483648 ≤ it.id ∧ it.id < 2147483648 ∧ it.prefix_id < 256 ∧ (it.stack = 0 → it.id = 0 ∧ it.prefix_id = 0)

instance (it : Item) : Decidable (ItemValid it) := by
  unfold ItemValid
  infer_instance

/-- Npc: sprite, name, position (two f32 bit patterns), homeless flag, home
coordinates. -/
structure Npc where
  sprite : Int
  name : List Nat
  x : Nat
  y : Nat
  homeless : Bool
  home_x : Int
  home_y : Int
  deriving DecidableEq

/-- write_npc: an active flag byte 1 is always written first, then the fixed
fields.  When the name is over the write_string limit the panic happens after
the flag and sprite bytes were emitted; the boolean records success. -/
def write_npc (n : Npc) : List Nat × Bool :=
  match write_string n.name with
  | (nm, true) =>
    (1 :: (encI32 n.sprite ++ nm ++ encU32 n.x ++ encU32 n.y ++ (if n.homeless then [1] else [0]) ++ encI32 n.home_x ++ encI32 n.home_y), true)
  | (_, false) => (1 :: encI32 n.sprite, false)

/-- WorldFile::write_npcs writes the records back to back; it stops at the
first failing record and never emits a trailing inactive flag byte. -/
def write_npcs : List Npc → List Nat × Bool
  | [] => ([], true)
  | n :: rest =>
    match write_npc n with
    | (b, true) =>
      match write_npcs rest with
      | (b2, ok2) => (b ++ b2, ok2)
    | (b, false) => (b, false)

/-- read_npc: a zero active flag terminates the list with None. -/
def read_npc (s : List Nat) : Except WldError (Option Npc × List Nat) :=
  step (readU8 s) fun active s =>
  if active = 0 then .ok (none, s) else
  step (readI32 s) fun sprite s =>
  step (read_string s) fun name s =>
  step (readF32 s) fun x s =>
  step (readF32 s) fun y s =>
  step (readU8 s) fun hm s =>
  step (readI32 s) fun hx s =>
  step (readI32 s) fun hy s =>
  .ok (some ⟨sprite, name, x, y, hm != 0, hx, hy⟩, s)

/-- The loop of WorldFile::read_npcs, with an explicit iteration bound.  Each
successfully parsed record consumes at least one byte, so a fuel of the
stream length plus one can never run out (read_npcs_fuel_agree below). -/
def read_npcs_fuel : Nat → List Nat → Except WldError (List Npc × List Nat)
  | 0, _ => .error .eof
  | fuel + 1, s =>
    match read_npc s with
    | .error e => .error e
    | .ok (none, rest) => .ok ([], rest)
    | .ok (some n, rest) =>
      match read_npcs_fuel fuel rest with
      | .error e => .error e
      | .ok (l, r) => .ok (n :: l, r)

/-- WorldFile::read_npcs. -/
def read_npcs (s : List Nat) : Except WldError (List Npc × List Nat) :=
  read_npcs_fuel (s.length + 1) s

/-- Field ranges of a writable NPC record: the Rust i32/u32 value ranges and
the write_string length limit. -/
def NpcValid (n : Npc) : Prop :=
  n.name.length < 127 ∧ -2147483648 ≤ n.sprite ∧ n.sprite < 2147483648 ∧ n.x < 4294967296 ∧ n.y < 4294967296 ∧ -2147483648 ≤ n.home_x ∧ n.home_x < 2147483648 ∧ -2147483648 ≤ n.home_y ∧ n.home_y < 2147483648

instance (n : Npc) : Decidable (NpcValid n) := by
  unfold NpcValid
  infer_instance

/-- Validity of a chest for the round trip: position fields fit in u16, the
name is under the write_string limit, and the slot array has the fixed
capacity 40 with every item valid (ItemValid includes the forced zero-stack
normalisation). -/
def ChestValid (c : Chest) : Prop :=
  c.x < 65536 ∧ c.y < 65536 ∧ c.name.length < 127 ∧ c.items.length = 40 ∧ ∀ it ∈ c.items, ItemValid it

instance (c : Chest) : Decidable (ChestValid c) := by
  unfold ChestValid
  infer_instance

def cgood : Chest := ⟨3, 4, [65, 66], List.replicate 40 ⟨0, 0, 0⟩⟩

def cbad : Chest := ⟨1, 2, [], ⟨0, 7, 0⟩ :: List.replicate 39 ⟨0, 0, 0⟩⟩

def cbad_rt : Chest := ⟨1, 2, [], List.replicate 40 ⟨0, 0, 0⟩⟩

def clong : Chest := ⟨100, 50, List.replicate 127 65, List.replicate 40 ⟨0, 0, 0⟩⟩

def nlong : Npc := ⟨0, List.replicate 127 66, 0, 0, false, 0, 0⟩

def cnpc0 : Npc := ⟨5, [65], 1, 2, true, 3, 4⟩

def cnpc1 : Npc := ⟨6, [], 0, 0, false, 1, 1⟩

/-- The parsed offset table (struct Header of the Rust source): ten i32
offsets plus the tile_frame_important bitmask bytes.  The 11th stored table
entry is read and discarded by read_offsets and is not part of the struct. -/
structure Header where
  header : Int
  tiles : Int
  chests : Int
  signs : Int
  npcs : Int
  entities : Int
  footer : Int
  unused_1 : Int
  unused_2 : Int
  unused_3 : Int
  tile_frame_important : List Nat
  deriving DecidableEq

/-- The magic bytes of the string relogic. -/
def relogic : List Nat := [114, 101, 108, 111, 103, 105, 99]

/-- read_offsets of the terraria-wld crate: version, magic, filetype 2,
times_saved, is_favorite, pointer count 11, eleven i32 table entries (the
last discarded), then the length-prefixed frame-important bitmask.  The
i16-to-usize cast of the bitmask length sign-extends, matching Rust. -/
def read_offsets (s : List Nat) : Except WldError (Header × List Nat) :=
  step (readI32 s) fun _ver s =>
  step (readBytes 7 s) fun magic s =>
  if magic ≠ relogic then .error .notValidMap else
  step (readU8 s) fun filetype s =>
  if filetype ≠ 2 then .error (.unsupportedFiletype filetype) else
  step (readU32 s) fun _times_saved s =>
  step (readU64 s) fun _is_favorite s =>
  step (readI16 s) fun n_pointers s =>
  if n_pointers ≠ 11 then .error (.unsupportedNPointers n_pointers) else
  step (readI32 s) fun header s =>
  step (readI32 s) fun tiles s =>
  step (readI32 s) fun chests s =>
  step (readI32 s) fun signs s =>
  step (readI32 s) fun npcs s =>
  step (readI32 s) fun entities s =>
  step (readI32 s) fun footer s =>
  step (readI32 s) fun unused_1 s =>
  step (readI32 s) fun unused_2 s =>
  step (readI32 s) fun unused_3 s =>
  step (readI32 s) fun _unknown_4 s =>
  step (readI16 s) fun n_tfi s =>
  step (readBytes ((n_tfi % 18446744073709551616)).toNat s) fun tfi s =>
  .ok (⟨header, tiles, chests, signs, npcs, entities, footer, unused_1, unused_2, unused_3, tfi⟩, s)

/-- Overwrite bytes of a file at a position, the semantics of seek plus
write_all: the file grows when the write runs past the end and a seek past
the end fills with zero bytes (never exercised by the claims). -/
def writeAt (f : List Nat) (p : Nat) (b : List Nat) : List Nat :=
  f.take p ++ List.replicate (p - f.length) 0 ++ b ++ f.drop (p + b.length)

/-- Contiguous byte range of a file. -/
def fileSlice (f : List Nat) (p n : Nat) : List Nat := (f.drop p).take n

/-- Header::write - emits the ten stored offsets as i32, and nothing for the
11th table entry, which the struct does not carry. -/
def header_write (h : Header) : List Nat :=
  encI32 h.header ++ (encI32 h.tiles ++ (encI32 h.chests ++ (encI32 h.signs ++ (encI32 h.npcs ++ (encI32 h.entities ++ (encI32 h.footer ++ (encI32 h.unused_1 ++ (encI32 h.unused_2 ++ encI32 h.unused_3))))))))

/-- A WorldFile session: the file contents and the parsed header. -/
structure WorldFile where
  file : List Nat
  header : Header

/-- Serialization of the chest records in order, stopping at the first
record whose write panics (everything emitted up to the panic stays). -/
def write_chest_list : List Chest → List Nat × Bool
  | [] => ([], true)
  | c :: rest =>
    match Chest.write c with
    | (b, true) =>
      match write_chest_list rest with
      | (b2, ok2) => (b ++ b2, ok2)
    | (b, false) => (b, false)

/-- Truncating usize-to-i16 cast used for the chest count. -/
def i16_of_nat (n : Nat) : Int := asI16 n

/-- write_chests_inner: chest count as i16, the items-per-chest constant 40,
then every chest record. -/
def write_chests_inner (chests : List Chest) : List Nat × Bool :=
  match write_chest_list chests with
  | (b, ok2) => (encI16 (i16_of_nat chests.length) ++ (encI16 40 ++ b), ok2)

/-- Sign-extending i32-to-u64 cast used for seek positions. -/
def u64_of_i32 (v : Int) : Nat := ((v % 18446744073709551616)).toNat

/-- Wrapping i32 arithmetic (release-mode Rust overflow semantics). -/
def wrap32 (v : Int) : Int := (v + 2147483648) % 4294967296 - 2147483648

/-- The tail buffer: every byte from the signs offset to the end of file,
read before the chest section is overwritten. -/
def rest_tail (wf : WorldFile) : List Nat := wf.file.drop (u64_of_i32 wf.header.signs)

/-- The file position right after the rewritten chest section. -/
def new_signs_nat (wf : WorldFile) (chests : List Chest) : Nat :=
  u64_of_i32 wf.header.chests + ((write_chests_inner chests).1).length

/-- offs_diff of write_chests: the new signs offset truncated to i32 minus
the old one, in wrapping i32 arithmetic. -/
def chests_diff (wf : WorldFile) (chests : List Chest) : Int :=
  wrap32 (asI32 (new_signs_nat wf chests) - wf.header.signs)

/-- The in-memory header after write_chests shifts the seven offsets at or
after signs by offs_diff; header, tiles and chests are untouched, and the
struct has no field for the 11th table entry. -/
def shifted_header (wf : WorldFile) (chests : List Chest) : Header :=
  { wf.header with
    signs := wrap32 (wf.header.signs + chests_diff wf chests),
    npcs := wrap32 (wf.header.npcs + chests_diff wf chests),
    entities := wrap32 (wf.header.entities + chests_diff wf chests),
    footer := wrap32 (wf.header.footer + chests_diff wf chests),
    unused_1 := wrap32 (wf.header.unused_1 + chests_diff wf chests),
    unused_2 := wrap32 (wf.header.unused_2 + chests_diff wf chests),
    unused_3 := wrap32 (wf.header.unused_3 + chests_diff wf chests) }

/-- WorldFile::write_chests: read the tail from the signs offset, write the
new chest section at the chests offset, write the tail back at the new end
of the chest section, then rewrite the ten-entry offset table at its fixed
position 0x1A.  The file is never truncated.  A name over the write_string
limit panics; the model surfaces this as an error (the on-disk bytes already
written before such a panic are outside every claim, which all concern the
successful path or the emitted-bytes level). -/
def WorldFile.write_chests (wf : WorldFile) (chests : List Chest) : Except WldError WorldFile :=
  match write_chests_inner chests with
  | (bytes, true) =>
    .ok ⟨writeAt (writeAt (writeAt wf.file (u64_of_i32 wf.header.chests) bytes) (u64_of_i32 wf.header.chests + bytes.length) (rest_tail wf)) 26 (header_write (shifted_header wf chests)), shifted_header wf chests⟩
  | (_, false) => .error .encodingViolation

/-- The exact section-size delta of a write_chests call. -/
def chest_delta (wf : WorldFile) (chests : List Chest) : Int :=
  ((new_signs_nat wf chests : Nat) : Int) - wf.header.signs

/-- Decode the i32 at a byte position of a file. -/
def readI32At (f : List Nat) (p : Nat) : Int := asI32 (leVal (fileSlice f p 4))

def cfile : List Nat := List.replicate 66 7 ++ ([99, 0, 0, 0] ++ ([7, 7] ++ ([1, 2, 3, 4, 5] ++ [8, 9, 9])))

def cheader : Header := ⟨1, 2, 72, 77, 100, 101, 102, 103, 104, 105, []⟩

def cwf : WorldFile := ⟨cfile, cheader⟩

/-- bsa (bit set at). -/
def bsa (byte : Nat) (idx : Nat) : Bool := byte &&& (1 <<< idx) != 0

/-- bit_index: Rust indexing panics when the byte index is out of bounds of
the tile_frame_important array. -/
def bit_index (bytes : List Nat) (idx : Nat) : Except WldError Bool :=
  match bytes[idx / 8]? with
  | none => .error .panic
  | some b => .ok (bsa b (idx % 8))

/-- Frame offset of a frame-important tile (two i16 values). -/
structure TileFrameOffset where
  x : Int
  y : Int
  deriving DecidableEq

/-- One on-disk tile record of the read_tiles loop body: flag bytes,
optional front tile id with optional frame offset, skipped paint, wall and
liquid bytes, and the RLE repeat count (0 when no RLE flag is set).
Returns what the loop body feeds the callback (the decoded front, if any)
together with the repeat count and the remaining stream. -/
def readRecord (tfi : List Nat) (s : List Nat) : Except WldError (Option (Nat × Option TileFrameOffset) × Nat × List Nat) :=
  step (readU8 s) fun flags1 s =>
  let flags2_present := bsa flags1 0
  let not_air := bsa flags1 1
  let has_wall := bsa flags1 2
  let liquid_type_lo := bsa flags1 3
  let liquid_type_hi := bsa flags1 4
  let long_type_id := bsa flags1 5
  let rle_on := bsa flags1 6
  let rle_on_long := bsa flags1 7
  step (if flags2_present then step (readU8 s) fun flags2 s2 => .ok (bsa flags2 0, s2) else .ok (false, s)) fun flags3_present s =>
  step (if flags3_present then step (readU8 s) fun flags3 s2 => .ok ((bsa flags3 3, bsa flags3 4), s2) else .ok ((false, false), s)) fun painted s =>
  step (if not_air then
      step (if long_type_id then readU16 s else readU8 s) fun tile_id s2 =>
      match bit_index tfi tile_id with
      | .error e => .error e
      | .ok true =>
        step (readI16 s2) fun fx s3 =>
        step (readI16 s3) fun fy s4 =>
        .ok (some (tile_id, some ⟨fx, fy⟩), s4)
      | .ok false => .ok (some (tile_id, none), s2)
    else .ok (none, s)) fun front s =>
  step (if painted.1 then step (readU8 s) fun _paint s2 => .ok ((), s2) else .ok ((), s)) fun _ s =>
  step (if has_wall then
      step (readU8 s) fun _wall s2 =>
      if painted.2 then step (readU8 s2) fun _wp s3 => .ok ((), s3) else .ok ((), s2)
    else .ok ((), s)) fun _ s =>
  step (if liquid_type_lo || liquid_type_hi then step (readU8 s) fun _lv s2 => .ok ((), s2) else .ok ((), s)) fun _ s =>
  step (if rle_on || rle_on_long then (if rle_on_long then readU16 s else readU8 s) else .ok (0, s)) fun rle s =>
  .ok (front, rle, s)

/-- The while loop of read_tiles over the cell cursor i, accumulating the
sequence of callback invocations (tile id, cell index, frame offset) and the
number of on-disk records processed.  The fuel argument bounds the number of
iterations; since every iteration advances i by rle + 1 which is at least 1,
a fuel of len iterations can never run out (see the fuel-agreement part of
the loop-bound theorem), so the wrapper read_tiles passes w * h. -/
def readTilesAux (tfi : List Nat) : Nat → List Nat → Nat → Nat → Except WldError (List (Nat × Nat × Option TileFrameOffset) × Nat)
  | 0, _, _, _ => .ok ([], 0)
  | fuel + 1, s, i, len =>
    if i < len then
      match readRecord tfi s with
      | .error e => .error e
      | .ok (front, rle, rest) =>
        match readTilesAux tfi fuel rest (i + rle + 1) len with
        | .error e => .error e
        | .ok (tr, n) =>
          .ok ((match front with
            | some t => (t.1, i, t.2) :: tr
            | none => tr), n + 1)
    else .ok ([], 0)

/-- read_tiles of the terraria-wld crate, as the trace of callback
invocations plus the record count. -/
def read_tiles (tfi : List Nat) (s : List Nat) (w h : Nat) : Except WldError (List (Nat × Nat × Option TileFrameOffset) × Nat) :=
  readTilesAux tfi (w * h) s 0 (w * h)

/-- ChestType of the terraria-wld crate, with the fallback variants carrying
the raw frame-x value. -/
inductive ChestType where
  | Plain
  | Gold
  | Skyware
  | Ice
  | Granite
  | Marble
  | Mushroom
  | RichMahogany
  | Ivy
  | Water
  | WebCovered
  | LockedGold
  | LockedShadow
  | LockedCorruption
  | LockedCrimson
  | LockedHallowed
  | LockedJungle
  | LockedFrozen
  | Lihzahrd
  | UnknownChest (x : Int)
  | UnknownDresser (x : Int)
  deriving DecidableEq

/-- ChestType::from_frame_x: the fixed lookup over known frame-x offsets,
defaulting to UnknownChest with the raw value. -/
def ChestType.from_frame_x (frame_x : Int) : ChestType :=
  if frame_x = 0 then .Plain
  else if frame_x = 36 then .Gold
  else if frame_x = 72 then .LockedGold
  else if frame_x = 144 then .LockedShadow
  else if frame_x = 288 then .RichMahogany
  else if frame_x = 360 then .Ivy
  else if frame_x = 396 then .Ice
  else if frame_x = 468 then .Skyware
  else if frame_x = 540 then .WebCovered
  else if frame_x = 576 then .Lihzahrd
  else if frame_x = 612 then .Water
  else if frame_x = 828 then .LockedJungle
  else if frame_x = 864 then .LockedCorruption
  else if frame_x = 900 then .LockedCrimson
  else if frame_x = 936 then .LockedHallowed
  else if frame_x = 972 then .LockedFrozen
  else if frame_x = 1152 then .Mushroom
  else if frame_x = 1800 then .Granite
  else if frame_x = 1836 then .Marble
  else .UnknownChest frame_x

/-- The frame-x offsets with a named variant in the lookup. -/
def knownFrameX : List Int := [0, 36, 72, 144, 288, 360, 396, 468, 540, 576, 612, 828, 864, 900, 936, 972, 1152, 1800, 1836]

/-- The callback body of load_chest_types for one decoded tile: id 21 with a
zero frame-y inserts the looked-up chest type at the tile coordinate, id 88
inserts UnknownDresser unconditionally, and both ids unwrap the frame offset
and so panic when the tile carries none.  The coordinate is the cell index
split column-major and truncated as u16, and the map is an association list
whose newest entry shadows older ones, as HashMap::insert replaces. -/
def chest_callback (h : Nat) (m : List ((Nat × Nat) × ChestType)) (e : Nat × Nat × Option TileFrameOffset) : Except WldError (List ((Nat × Nat) × ChestType)) :=
  if e.1 = 21 then
    match e.2.2 with
    | none => .error .panic
    | some tfo =>
      if tfo.y = 0 then .ok (((e.2.1 / h % 65536, e.2.1 % h % 65536), ChestType.from_frame_x tfo.x) :: m)
      else .ok m
  else if e.1 = 88 then
    match e.2.2 with
    | none => .error .panic
    | some tfo => .ok (((e.2.1 / h % 65536, e.2.1 % h % 65536), ChestType.UnknownDresser tfo.x) :: m)
  else .ok m

/-- load_chest_types: one read_tiles pass folding the callback over the
decoded tiles. -/
def load_chest_types (s : List Nat) (w h : Nat) (tfi : List Nat) : Except WldError (List ((Nat × Nat) × ChestType)) :=
  match read_tiles tfi s w h with
  | .error e => .error e
  | .ok (tr, _) => tr.foldlM (chest_callback h) []

theorem step_ok {α β : Type} (a : α) (s : List Nat) (k : α → List Nat → Except WldError β) : step (.ok (a, s)) k = k a s := rfl

theorem step_error {α β : Type} (e : WldError) (k : α → List Nat → Except WldError β) : step (.error e) k = .error e := rfl

theorem leBytes_length (k n : Nat) : (leBytes k n).length = k := by
  induction k generalizing n with
  | zero => rfl
  | succ k ih => simp [leBytes, ih]

theorem encI32_length (v : Int) : (encI32 v).length = 4 := leBytes_length 4 _

theorem leVal_leBytes_two (n : Nat) : leVal (leBytes 2 n) = n % 65536 := by
  simp only [leBytes, leVal, List.foldr]
  omega

theorem leVal_leBytes_four (n : Nat) : leVal (leBytes 4 n) = n % 4294967296 := by
  simp only [leBytes, leVal, List.foldr]
  omega

theorem readBytes_append (l rest : List Nat) : readBytes l.length (l ++ rest) = .ok (l, rest) := by
  induction l with
  | nil => rfl
  | cons b t ih => simp [readBytes, ih, step_ok]

theorem readBytes_append_of_eq {n : Nat} (l rest : List Nat) (h : l.length = n) : readBytes n (l ++ rest) = .ok (l, rest) := by
  subst h; exact readBytes_append l rest

theorem readLE_append {k : Nat} (l rest : List Nat) (h : l.length = k) : readLE k (l ++ rest) = .ok (leVal l, rest) := by
  simp [readLE, readBytes_append_of_eq l rest h, step_ok]

theorem readU8_cons (b : Nat) (rest : List Nat) : readU8 (b :: rest) = .ok (b, rest) := rfl

theorem readU16_enc (n : Nat) (rest : List Nat) (h : n < 65536) : readU16 (encU16 n ++ rest) = .ok (n, rest) := by
  have h2 : leVal (encU16 n) = n := by
    simpa [encU16, leVal_leBytes_two] using Nat.mod_eq_of_lt h
  rw [readU16, readLE_append (encU16 n) rest (leBytes_length 2 n), h2]

theorem readU32_enc (n : Nat) (rest : List Nat) (h : n < 4294967296) : readU32 (encU32 n ++ rest) = .ok (n, rest) := by
  have h2 : leVal (encU32 n) = n := by
    simpa [encU32, leVal_leBytes_four] using Nat.mod_eq_of_lt h
  rw [readU32, readLE_append (encU32 n) rest (leBytes_length 4 n), h2]

theorem readI16_enc (v : Int) (rest : List Nat) (h1 : -32768 ≤ v) (h2 : v < 32768) : readI16 (encI16 v ++ rest) = .ok (v, rest) := by
  rw [readI16, readU16, readLE_append (encI16 v) rest (leBytes_length 2 _)]
  have h3 : leVal (encI16 v) = ((v % 65536)).toNat := by
    have hlt : ((v % 65536)).toNat < 65536 := by omega
    simpa [encI16, leVal_leBytes_two] using Nat.mod_eq_of_lt hlt
  rw [h3, step_ok]
  have : asI16 ((v % 65536)).toNat = v := by
    unfold asI16
    omega
  rw [this]

theorem readI32_enc (v : Int) (rest : List Nat) (h1 : -2147483648 ≤ v) (h2 : v < 2147483648) : readI32 (encI32 v ++ rest) = .ok (v, rest) := by
  rw [readI32, readU32, readLE_append (encI32 v) rest (leBytes_length 4 _)]
  have h3 : leVal (encI32 v) = ((v % 4294967296)).toNat := by
    have hlt : ((v % 4294967296)).toNat < 4294967296 := by omega
    simpa [encI32, leVal_leBytes_four] using Nat.mod_eq_of_lt hlt
  rw [h3, step_ok]
  have : asI32 ((v % 4294967296)).toNat = v := by
    unfold asI32
    omega
  rw [this]

theorem readBytes_consume {n : Nat} {s bs rest : List Nat} (h : readBytes n s = .ok (bs, rest)) : rest.length + n = s.length := by
  induction n generalizing s bs rest with
  | zero =>
    simp [readBytes] at h
    simp [h.2]
  | succ n ih =>
    match s with
    | [] => simp [readBytes] at h
    | b :: t =>
      simp only [readBytes, step] at h
      match hb : readBytes n t with
      | .error e => rw [hb] at h; simp at h
      | .ok (bs2, r2) =>
        rw [hb] at h
        simp at h
        have := ih hb
        simp [← h.2, List.length_cons]
        omega

theorem small_byte_bits : ∀ b : Nat, b < 127 → b &&& 128 = 0 ∧ b &&& 127 = b := by decide

theorem read_string_roundtrip (name rest : List Nat) (h : name.length < 127) : read_string ((write_string name).1 ++ rest) = .ok (name, rest) := by
  have hb := small_byte_bits name.length h
  simp only [write_string, if_pos h, List.cons_append, read_string, read_string_len, hb.1, hb.2,
    if_pos rfl, Nat.zero_mod, Nat.shiftLeft_zero, Nat.zero_or, if_true]
  have hm : name.length % 256 = name.length := Nat.mod_eq_of_lt (by omega)
  rw [hm, step_ok, readBytes_append]

theorem read_string_len_consume {s rest : List Nat} {sh len L : Nat} (h : read_string_len s sh len = .ok (L, rest)) : rest.length < s.length := by
  induction s generalizing sh len with
  | nil => simp [read_string_len] at h
  | cons b t ih =>
    simp only [read_string_len] at h
    by_cases hz : b &&& 128 = 0
    · rw [if_pos hz] at h
      simp at h
      simp [← h.2]
    · rw [if_neg hz] at h
      have := ih h
      simp
      omega

theorem read_string_consume {s name rest : List Nat} (h : read_string s = .ok (name, rest)) : rest.length < s.length := by
  unfold read_string at h
  unfold step at h
  match hl : read_string_len s 0 0 with
  | .error e => rw [hl] at h; simp at h
  | .ok (L, r2) =>
    rw [hl] at h
    have h1 := read_string_len_consume hl
    have h2 := readBytes_consume h
    omega

theorem item_roundtrip (it : Item) (t : List Nat) (h : ItemValid it) : Item.read (Item.write it ++ t) = .ok (it, t) := by
  obtain ⟨h1, h2, h3, _, h5⟩ := h
  by_cases hz : it.stack = 0
  · obtain ⟨hid, hp⟩ := h5 hz
    simp only [Item.write, hz, ne_eq, not_true_eq_false, if_neg, ite_false, List.append_nil]
    have : Item.read (encU16 0 ++ t) = .ok (⟨0, 0, 0⟩, t) := by
      rw [Item.read, readU16_enc 0 t (by omega), step_ok]
      simp
    cases it
    simp_all
  · simp only [Item.write, ne_eq, hz, not_false_eq_true, ite_true, List.append_assoc]
    rw [Item.read, readU16_enc it.stack _ h1, step_ok, if_neg hz,
      readI32_enc it.id _ h2 h3, step_ok, List.cons_append, readU8_cons, step_ok]
    simp

theorem items_roundtrip (its : List Item) (t : List Nat) (h : ∀ it ∈ its, ItemValid it) : readItems its.length ((its.map Item.write).flatten ++ t) = .ok (its, t) := by
  induction its with
  | nil => simp [readItems]
  | cons it rest ih =>
    simp only [List.map_cons, List.flatten_cons, List.length_cons, List.append_assoc]
    rw [readItems, item_roundtrip it _ (h it (by simp)), step_ok,
      ih (fun i hi => h i (by simp [hi])), step_ok]

theorem readLE_consume {k : Nat} {s rest : List Nat} {v : Nat} (h : readLE k s = .ok (v, rest)) : rest.length + k = s.length := by
  unfold readLE at h
  match hb : readBytes k s with
  | .error e => rw [hb, step_error] at h; simp at h
  | .ok (bs, r2) =>
    rw [hb, step_ok] at h
    simp only [Except.ok.injEq, Prod.mk.injEq] at h
    have hc := readBytes_consume hb
    obtain ⟨h1, h2⟩ := h
    subst h2
    exact hc

theorem readI32_consume {s rest : List Nat} {v : Int} (h : readI32 s = .ok (v, rest)) : rest.length + 4 = s.length := by
  unfold readI32 readU32 at h
  match hb : readLE 4 s with
  | .error e => rw [hb, step_error] at h; simp at h
  | .ok (n, r2) =>
    rw [hb, step_ok] at h
    simp only [Except.ok.injEq, Prod.mk.injEq] at h
    obtain ⟨h1, h2⟩ := h
    subst h2
    exact readLE_consume hb

theorem readU8_consume {s rest : List Nat} {v : Nat} (h : readU8 s = .ok (v, rest)) : rest.length + 1 = s.length := by
  match s with
  | [] => simp [readU8] at h
  | b :: t =>
    rw [readU8_cons] at h
    simp only [Except.ok.injEq, Prod.mk.injEq] at h
    obtain ⟨h1, h2⟩ := h
    subst h2
    simp

theorem read_npc_consume {s rest : List Nat} {n : Npc} (h : read_npc s = .ok (some n, rest)) : rest.length < s.length := by
  unfold read_npc at h
  match ha : readU8 s with
  | .error e => rw [ha, step_error] at h; simp at h
  | .ok (active, s0) =>
    rw [ha, step_ok] at h
    have ca := readU8_consume ha
    by_cases hz : active = 0
    · rw [if_pos hz] at h; simp at h
    · rw [if_neg hz] at h
      match h1 : readI32 s0 with
      | .error e => rw [h1, step_error] at h; simp at h
      | .ok (sp, s1) =>
        rw [h1, step_ok] at h
        match h2 : read_string s1 with
        | .error e => rw [h2, step_error] at h; simp at h
        | .ok (nm, s2) =>
          rw [h2, step_ok] at h
          match h3 : readF32 s2 with
          | .error e => rw [h3, step_error] at h; simp at h
          | .ok (xv, s3) =>
            rw [h3, step_ok] at h
            match h4 : readF32 s3 with
            | .error e => rw [h4, step_error] at h; simp at h
            | .ok (yv, s4) =>
              rw [h4, step_ok] at h
              match h5 : readU8 s4 with
              | .error e => rw [h5, step_error] at h; simp at h
              | .ok (hmv, s5) =>
                rw [h5, step_ok] at h
                match h6 : readI32 s5 with
                | .error e => rw [h6, step_error] at h; simp at h
                | .ok (hxv, s6) =>
                  rw [h6, step_ok] at h
                  match h7 : readI32 s6 with
                  | .error e => rw [h7, step_error] at h; simp at h
                  | .ok (hyv, s7) =>
                    rw [h7, step_ok] at h
                    simp only [Except.ok.injEq, Prod.mk.injEq] at h
                    obtain ⟨hn, hr⟩ := h
                    subst hr
                    have c1 := readI32_consume h1
                    have c2 := read_string_consume h2
                    have c3 := readLE_consume h3
                    have c4 := readLE_consume h4
                    have c5 := readU8_consume h5
                    have c6 := readI32_consume h6
                    have c7 := readI32_consume h7
                    omega

theorem write_npc_ok (n : Npc) (h : n.name.length < 127) : write_npc n = (1 :: (encI32 n.sprite ++ (n.name.length :: n.name) ++ encU32 n.x ++ encU32 n.y ++ (if n.homeless then [1] else [0]) ++ encI32 n.home_x ++ encI32 n.home_y), true) := by
  unfold write_npc write_string
  rw [if_pos h]

theorem write_npc_head (n : Npc) : ((write_npc n).1).head? = some 1 := by
  unfold write_npc
  match hw : write_string n.name with
  | (nm, true) => simp
  | (nm, false) => simp

theorem write_npc_len_pos (n : Npc) : 1 ≤ ((write_npc n).1).length := by
  unfold write_npc
  match hw : write_string n.name with
  | (nm, true) => simp
  | (nm, false) => simp

theorem readF32_enc (n : Nat) (rest : List Nat) (h : n < 4294967296) : readF32 (encU32 n ++ rest) = .ok (n, rest) :=
  readU32_enc n rest h

theorem npc_roundtrip (n : Npc) (t : List Nat) (h : NpcValid n) : read_npc ((write_npc n).1 ++ t) = .ok (some n, t) := by
  obtain ⟨h1, h2, h3, h4, h5, h6, h7, h8, h9⟩ := h
  rw [write_npc_ok n h1]
  have hw : (write_string n.name).1 = n.name.length :: n.name := by
    unfold write_string
    rw [if_pos h1]
  unfold read_npc
  rw [List.cons_append, readU8_cons, step_ok, if_neg (by omega)]
  simp only [List.append_assoc]
  rw [readI32_enc n.sprite _ h2 h3, step_ok, ← hw,
    read_string_roundtrip n.name _ h1, step_ok,
    readF32_enc n.x _ h4, step_ok, readF32_enc n.y _ h5, step_ok]
  cases hh : n.homeless with
  | false =>
    rw [if_neg (by decide)]
    simp only [List.cons_append, List.nil_append]
    rw [readU8_cons, step_ok, readI32_enc n.home_x _ h6 h7, step_ok,
      readI32_enc n.home_y _ h8 h9, step_ok]
    cases n
    simp_all
  | true =>
    rw [if_pos rfl]
    simp only [List.cons_append, List.nil_append]
    rw [readU8_cons, step_ok, readI32_enc n.home_x _ h6 h7, step_ok,
      readI32_enc n.home_y _ h8 h9, step_ok]
    cases n
    simp_all

theorem write_npcs_join (npcs : List Npc) (h : ∀ n ∈ npcs, NpcValid n) : write_npcs npcs = ((npcs.map fun n => (write_npc n).1).flatten, true) := by
  induction npcs with
  | nil => rfl
  | cons n rest ih =>
    have hn := h n (by simp)
    have hw := write_npc_ok n hn.1
    unfold write_npcs
    rw [hw, ih (fun m hm => h m (by simp [hm]))]
    simp [hw]

theorem write_npcs_len (npcs : List Npc) : npcs.length ≤ ((npcs.map fun n => (write_npc n).1).flatten).length := by
  induction npcs with
  | nil => simp
  | cons n rest ih =>
    simp only [List.map_cons, List.flatten_cons, List.length_append, List.length_cons]
    have := write_npc_len_pos n
    omega

theorem read_npcs_fuel_none {s rest : List Nat} (fuel : Nat) (h : read_npc s = .ok (none, rest)) : read_npcs_fuel (fuel + 1) s = .ok ([], rest) := by
  unfold read_npcs_fuel
  rw [h]

theorem read_npcs_fuel_some_ok {s rest : List Nat} {n : Npc} {l : List Npc} {r : List Nat} (fuel : Nat) (h : read_npc s = .ok (some n, rest)) (h2 : read_npcs_fuel fuel rest = .ok (l, r)) : read_npcs_fuel (fuel + 1) s = .ok (n :: l, r) := by
  unfold read_npcs_fuel
  rw [h]
  show (match read_npcs_fuel fuel rest with | Except.error e => Except.error e | Except.ok (l, r) => Except.ok (n :: l, r)) = Except.ok (n :: l, r)
  rw [h2]

theorem read_npcs_fuel_some_err {s rest : List Nat} {n : Npc} {e : WldError} (fuel : Nat) (h : read_npc s = .ok (some n, rest)) (h2 : read_npcs_fuel fuel rest = .error e) : read_npcs_fuel (fuel + 1) s = .error e := by
  unfold read_npcs_fuel
  rw [h]
  show (match read_npcs_fuel fuel rest with | Except.error e2 => Except.error e2 | Except.ok (l, r) => Except.ok (n :: l, r)) = Except.error e
  rw [h2]

theorem read_npcs_fuel_write (npcs : List Npc) : ∀ fuel t, (∀ n ∈ npcs, NpcValid n) → npcs.length < fuel → read_npcs_fuel fuel (((npcs.map fun n => (write_npc n).1).flatten) ++ 0 :: t) = .ok (npcs, t) := by
  induction npcs with
  | nil =>
    intro fuel t _ hf
    obtain ⟨f, rfl⟩ : ∃ f, fuel = f + 1 := ⟨fuel - 1, by omega⟩
    simp only [List.map_nil, List.flatten_nil, List.nil_append]
    refine read_npcs_fuel_none f ?_
    unfold read_npc
    rw [readU8_cons, step_ok, if_pos rfl]
  | cons n rest ih =>
    intro fuel t h hf
    obtain ⟨f, rfl⟩ : ∃ f, fuel = f + 1 := ⟨fuel - 1, by omega⟩
    simp only [List.map_cons, List.flatten_cons, List.append_assoc]
    exact read_npcs_fuel_some_ok f (npc_roundtrip n _ (h n (by simp)))
      (ih f t (fun m hm => h m (by simp [hm])) (by simp at hf; omega))

theorem read_npc_none_flag {s rest : List Nat} (h : read_npc s = .ok (none, rest)) : readU8 s = .ok (0, rest) := by
  unfold read_npc at h
  match ha : readU8 s with
  | .error e => rw [ha, step_error] at h; simp at h
  | .ok (active, s0) =>
    rw [ha, step_ok] at h
    by_cases hz : active = 0
    · rw [if_pos hz] at h
      simp only [Except.ok.injEq, Prod.mk.injEq] at h
      obtain ⟨-, hs⟩ := h
      subst hz
      subst hs
      rfl
    · rw [if_neg hz] at h
      match h1 : readI32 s0 with
      | .error e => rw [h1, step_error] at h; simp at h
      | .ok (sp, s1) =>
        rw [h1, step_ok] at h
        match h2 : read_string s1 with
        | .error e => rw [h2, step_error] at h; simp at h
        | .ok (nm, s2) =>
          rw [h2, step_ok] at h
          match h3 : readF32 s2 with
          | .error e => rw [h3, step_error] at h; simp at h
          | .ok (xv, s3) =>
            rw [h3, step_ok] at h
            match h4 : readF32 s3 with
            | .error e => rw [h4, step_error] at h; simp at h
            | .ok (yv, s4) =>
              rw [h4, step_ok] at h
              match h5 : readU8 s4 with
              | .error e => rw [h5, step_error] at h; simp at h
              | .ok (hmv, s5) =>
                rw [h5, step_ok] at h
                match h6 : readI32 s5 with
                | .error e => rw [h6, step_error] at h; simp at h
                | .ok (hxv, s6) =>
                  rw [h6, step_ok] at h
                  match h7 : readI32 s6 with
                  | .error e => rw [h7, step_error] at h; simp at h
                  | .ok (hyv, s7) =>
                    rw [h7, step_ok] at h
                    simp at h

theorem read_npcs_fuel_split (npcs : List Npc) : ∀ fuel t l r, (∀ n ∈ npcs, NpcValid n) → read_npcs_fuel fuel (((npcs.map fun n => (write_npc n).1).flatten) ++ t) = .ok (l, r) → ∃ l2 f2, l = npcs ++ l2 ∧ f2 ≤ fuel ∧ read_npcs_fuel f2 t = .ok (l2, r) := by
  induction npcs with
  | nil =>
    intro fuel t l r _ h
    exact ⟨l, fuel, by simp, le_refl _, by simpa using h⟩
  | cons n rest ih =>
    intro fuel t l r hv h
    match fuel with
    | 0 => simp [read_npcs_fuel] at h
    | f + 1 =>
      simp only [List.map_cons, List.flatten_cons, List.append_assoc] at h
      have hnp := npc_roundtrip n (((rest.map fun m => (write_npc m).1).flatten) ++ t) (hv n (by simp))
      match hin : read_npcs_fuel f (((rest.map fun m => (write_npc m).1).flatten) ++ t) with
      | .error e => rw [read_npcs_fuel_some_err f hnp hin] at h; simp at h
      | .ok (l1, r1) =>
        rw [read_npcs_fuel_some_ok f hnp hin] at h
        simp only [Except.ok.injEq, Prod.mk.injEq] at h
        obtain ⟨hl, hr⟩ := h
        subst hr
        obtain ⟨l2, f2, he, hf2, hrd⟩ := ih f t l1 r1 (fun m hm => hv m (by simp [hm])) hin
        exact ⟨l2, f2, by simp [← hl, he], by omega, hrd⟩

theorem chest_roundtrip (c : Chest) (rest : List Nat) (h : ChestValid c) : Chest.read ((Chest.write c).1 ++ rest) = .ok (c, rest) := by
  obtain ⟨hx, hy, hn, hlen, hits⟩ := h
  have hws : write_string c.name = (c.name.length :: c.name, true) := by
    unfold write_string
    rw [if_pos hn]
  have hw1 : (Chest.write c).1 = encI32 (c.x : Int) ++ encI32 (c.y : Int) ++ (c.name.length :: c.name) ++ (c.items.map Item.write).flatten := by
    unfold Chest.write
    rw [hws]
  rw [hw1]
  unfold Chest.read
  simp only [List.append_assoc]
  rw [readI32_enc (c.x : Int) _ (by omega) (by omega), step_ok,
    readI32_enc (c.y : Int) _ (by omega) (by omega), step_ok]
  have hrs : read_string ((c.name.length :: c.name) ++ ((c.items.map Item.write).flatten ++ rest)) = .ok (c.name, (c.items.map Item.write).flatten ++ rest) := by
    have h0 := read_string_roundtrip c.name ((c.items.map Item.write).flatten ++ rest) hn
    rw [hws] at h0
    exact h0
  rw [hrs, step_ok, ← hlen, items_roundtrip c.items rest hits, step_ok]
  have hxe : (((c.x : Int)) % 65536).toNat = c.x := by omega
  have hye : (((c.y : Int)) % 65536).toNat = c.y := by omega
  rw [hxe, hye]

/-- Claim C3, counterexample: a chest whose slot 0 has stack 0 but id 7 is a
valid record under the claim's own proviso (its name is encodable), yet
write-then-read returns the slot as the all-zero item, so the round trip is
not the identity on all 40 slots including zero-stack slots. -/
theorem c3_counterexample : Chest.read (Chest.write cbad).1 = .ok (cbad_rt, []) ∧ cbad_rt ≠ cbad := by
  constructor
  · rfl
  · decide

/-- Claim C3 (amended): for every chest whose name is under the 127-byte
write limit, whose fields are within the Rust value ranges, and whose
zero-stack slots are normalised to the default item (the condition the
counterexample forces), serializing with Chest::write and deserializing with
Chest::read returns a chest equal to the original over position, name and
all 40 item slots. -/
theorem c3_chest_roundtrip (c : Chest) (rest : List Nat) (h : ChestValid c) : Chest.read ((Chest.write c).1 ++ rest) = .ok (c, rest) :=
  chest_roundtrip c rest h

/-- Witness for c3_chest_roundtrip at a concrete valid chest. -/
theorem c3_witness : Chest.read ((Chest.write cgood).1 ++ [7]) = .ok (cgood, [7]) :=
  c3_chest_roundtrip cgood [7] (by decide)

/-- Claim C5, counterexample: writing a chest whose name is 127 bytes long
fails, but only after the eight position bytes of the record were already
emitted, contradicting the claim that the write fails before any bytes of
the record are emitted. -/
theorem c5_counterexample : (Chest.write clong).2 = false ∧ ((Chest.write clong).1).length = 8 ∧ (8 : Nat) ≠ 0 := by
  refine ⟨rfl, rfl, by decide⟩

/-- Claim C5 (amended): when a record's string is 127 bytes or longer the
write fails (the write_string assert) before any byte of the string or its
length prefix is emitted and nothing is truncated, but the record's leading
fixed fields have already been emitted: the eight position bytes of a chest,
and the active-flag byte plus four sprite bytes of an NPC. -/
theorem c5_fail_after_fixed_fields :
    (∀ c : Chest, 127 ≤ c.name.length → Chest.write c = (encI32 (c.x : Int) ++ encI32 (c.y : Int), false))
    ∧ (∀ n : Npc, 127 ≤ n.name.length → write_npc n = (1 :: encI32 n.sprite, false)) := by
  constructor
  · intro c h
    have hws : write_string c.name = ([], false) := by
      unfold write_string
      rw [if_neg (by omega)]
    unfold Chest.write
    rw [hws]
  · intro n h
    have hws : write_string n.name = ([], false) := by
      unfold write_string
      rw [if_neg (by omega)]
    unfold write_npc
    rw [hws]

/-- Witness for c5_fail_after_fixed_fields at concrete over-long records. -/
theorem c5_witness : Chest.write clong = (encI32 ((clong.x : Nat) : Int) ++ encI32 ((clong.y : Nat) : Int), false) ∧ write_npc nlong = (1 :: encI32 nlong.sprite, false) :=
  ⟨c5_fail_after_fixed_fields.1 clong (by decide), c5_fail_after_fixed_fields.2 nlong (by decide)⟩

theorem item_read_zero (b0 b1 : Nat) (rest : List Nat) (h : b0 + 256 * b1 = 0) : Item.read (b0 :: b1 :: rest) = .ok (⟨0, 0, 0⟩, rest) := by
  unfold Item.read
  have hb : readU16 (b0 :: b1 :: rest) = .ok (0, rest) := by
    unfold readU16 readLE
    rw [show (b0 :: b1 :: rest) = [b0, b1] ++ rest from rfl, @readBytes_append_of_eq 2 [b0, b1] rest rfl, step_ok]
    simp only [Except.ok.injEq, Prod.mk.injEq, leVal, List.foldr]
    exact ⟨by omega, trivial⟩
  rw [hb, step_ok, if_pos rfl]

/-- Claim C9 (confirmed): an item slot whose decoded 16-bit stack is zero is
returned as the default item with id 0 and prefix 0, and an in-memory item
with stack 0 but nonzero id or prefix comes back from a write-then-read
cycle as the all-zero item. -/
theorem c9_zero_stack_slots :
    (∀ b0 b1 : Nat, ∀ rest : List Nat, b0 + 256 * b1 = 0 → Item.read (b0 :: b1 :: rest) = .ok (⟨0, 0, 0⟩, rest))
    ∧ (∀ it : Item, ∀ rest : List Nat, it.stack = 0 → Item.read (Item.write it ++ rest) = .ok (⟨0, 0, 0⟩, rest)) := by
  constructor
  · exact item_read_zero
  · intro it rest h
    unfold Item.write
    rw [h, if_neg (by simp), List.append_nil]
    exact item_read_zero 0 0 rest rfl

/-- Witness for c9_zero_stack_slots: slot bytes 0,0 decode to the default
item, and the item with stack 0 and id 7, prefix 9 does not survive the
cycle. -/
theorem c9_witness : Item.read ((0 : Nat) :: (0 : Nat) :: [5]) = .ok (⟨0, 0, 0⟩, [5]) ∧ Item.read (Item.write ⟨0, 7, 9⟩ ++ [1]) = .ok (⟨0, 0, 0⟩, [1]) :=
  ⟨c9_zero_stack_slots.1 0 0 [5] rfl, c9_zero_stack_slots.2 ⟨0, 7, 9⟩ [1] rfl⟩

theorem read_npcs_fuel_err {s : List Nat} {e : WldError} (fuel : Nat) (h : read_npc s = .error e) : read_npcs_fuel (fuel + 1) s = .error e := by
  unfold read_npcs_fuel
  rw [h]

/-- Claim C8 (confirmed): write_npcs emits exactly the concatenation of the
serialized records, each beginning with active-flag byte 1, and appends no
terminating zero flag byte; a subsequent read_npcs returns exactly the
written list when a zero flag byte sits immediately after the written
region, and cannot return exactly the written list when the following byte
is nonzero. -/
theorem c8_write_npcs_exact :
    (∀ npcs : List Npc, (∀ n ∈ npcs, NpcValid n) → write_npcs npcs = ((npcs.map fun n => (write_npc n).1).flatten, true))
    ∧ (∀ n : Npc, ((write_npc n).1).head? = some 1)
    ∧ (∀ npcs : List Npc, ∀ rest : List Nat, (∀ n ∈ npcs, NpcValid n) → read_npcs ((write_npcs npcs).1 ++ 0 :: rest) = .ok (npcs, rest))
    ∧ (∀ npcs : List Npc, ∀ c : Nat, ∀ rest : List Nat, ∀ l : List Npc, ∀ r : List Nat, (∀ n ∈ npcs, NpcValid n) → c ≠ 0 → read_npcs ((write_npcs npcs).1 ++ c :: rest) = .ok (l, r) → l ≠ npcs) := by
  refine ⟨write_npcs_join, write_npc_head, ?_, ?_⟩
  · intro npcs rest h
    have hj := write_npcs_join npcs h
    rw [hj]
    unfold read_npcs
    refine read_npcs_fuel_write npcs _ rest h ?_
    have := write_npcs_len npcs
    simp only [List.length_append, List.length_cons]
    omega
  · intro npcs c rest l r hv hc h
    have hj := write_npcs_join npcs hv
    rw [hj] at h
    unfold read_npcs at h
    obtain ⟨l2, f2, he, hf2, hrd⟩ := read_npcs_fuel_split npcs _ (c :: rest) l r hv h
    match f2, hrd with
    | 0, hrd => simp [read_npcs_fuel] at hrd
    | g + 1, hrd =>
      match hnp : read_npc (c :: rest) with
      | .error e => rw [read_npcs_fuel_err g hnp] at hrd; simp at hrd
      | .ok (none, r0) =>
        have hflag := read_npc_none_flag hnp
        rw [readU8_cons] at hflag
        simp only [Except.ok.injEq, Prod.mk.injEq] at hflag
        exact absurd hflag.1 hc
      | .ok (some n2, r0) =>
        match hin2 : read_npcs_fuel g r0 with
        | .error e => rw [read_npcs_fuel_some_err g hnp hin2] at hrd; simp at hrd
        | .ok (l3, r3) =>
          rw [read_npcs_fuel_some_ok g hnp hin2] at hrd
          simp only [Except.ok.injEq, Prod.mk.injEq] at hrd
          obtain ⟨hl2, -⟩ := hrd
          intro heq
          rw [he, ← hl2] at heq
          have := congrArg List.length heq
          simp only [List.length_append, List.length_cons] at this
          omega

/-- Witness for c8_write_npcs_exact at a concrete one-NPC list: the emitted
bytes, the leading flag, the read-back with a terminating zero byte, and the
failure of exact read-back when a further serialized record follows instead
of the terminator. -/
theorem c8_witness :
    write_npcs [cnpc0] = (([cnpc0].map fun n => (write_npc n).1).flatten, true)
    ∧ ((write_npc cnpc0).1).head? = some 1
    ∧ read_npcs ((write_npcs [cnpc0]).1 ++ 0 :: [9]) = .ok ([cnpc0], [9])
    ∧ [cnpc0, cnpc1] ≠ [cnpc0] := by
  refine ⟨c8_write_npcs_exact.1 [cnpc0] (by decide), c8_write_npcs_exact.2.1 cnpc0, c8_write_npcs_exact.2.2.1 [cnpc0] [9] (by decide), ?_⟩
  exact c8_write_npcs_exact.2.2.2 [cnpc0] 1 (((write_npc cnpc1).1).tail ++ [0]) [cnpc0, cnpc1] [] (by decide) (by decide) (by rfl)

theorem readI32_append (l rest : List Nat) (h : l.length = 4) : readI32 (l ++ rest) = .ok (asI32 (leVal l), rest) := by
  unfold readI32 readU32
  rw [readLE_append l rest h, step_ok]

theorem readU32_append (l rest : List Nat) (h : l.length = 4) : readU32 (l ++ rest) = .ok (leVal l, rest) := by
  unfold readU32
  rw [readLE_append l rest h]

theorem readU64_append (l rest : List Nat) (h : l.length = 8) : readU64 (l ++ rest) = .ok (leVal l, rest) := by
  unfold readU64
  rw [readLE_append l rest h]

/-- Claim C6 (confirmed): read_offsets fails with the format error for a
wrong magic (independently of every byte after the magic, so no further
reads), for a filetype other than 2, and for a pointer-table length other
than 11; when the three checks pass it reads all eleven table entries and
the length-prefixed frame-important bitmask before returning success. -/
theorem c6_read_offsets :
    (∀ v4 magic junk : List Nat, v4.length = 4 → magic.length = 7 → magic ≠ relogic →
      read_offsets (v4 ++ (magic ++ junk)) = .error .notValidMap)
    ∧ (∀ v4 junk : List Nat, ∀ ft : Nat, v4.length = 4 → ft ≠ 2 →
      read_offsets (v4 ++ (relogic ++ (ft :: junk))) = .error (.unsupportedFiletype ft))
    ∧ (∀ v4 t4 f8 junk : List Nat, ∀ np : Int, v4.length = 4 → t4.length = 4 → f8.length = 8 →
      -32768 ≤ np → np < 32768 → np ≠ 11 →
      read_offsets (v4 ++ (relogic ++ (2 :: (t4 ++ (f8 ++ (encI16 np ++ junk)))))) = .error (.unsupportedNPointers np))
    ∧ (∀ v4 t4 f8 mask rest : List Nat, ∀ o1 o2 o3 o4 o5 o6 o7 o8 o9 o10 o11 : Int, ∀ n : Nat,
      v4.length = 4 → t4.length = 4 → f8.length = 8 → n < 32768 → mask.length = n →
      (∀ v ∈ [o1, o2, o3, o4, o5, o6, o7, o8, o9, o10, o11], -2147483648 ≤ v ∧ v < 2147483648) →
      read_offsets (v4 ++ (relogic ++ (2 :: (t4 ++ (f8 ++ (encI16 11 ++ (encI32 o1 ++ (encI32 o2 ++ (encI32 o3 ++ (encI32 o4 ++ (encI32 o5 ++ (encI32 o6 ++ (encI32 o7 ++ (encI32 o8 ++ (encI32 o9 ++ (encI32 o10 ++ (encI32 o11 ++ (encI16 (n : Int) ++ (mask ++ rest)))))))))))))))))))
        = .ok (⟨o1, o2, o3, o4, o5, o6, o7, o8, o9, o10, mask⟩, rest)) := by
  refine ⟨?_, ?_, ?_, ?_⟩
  · intro v4 magic junk h4 h7 hm
    unfold read_offsets
    rw [readI32_append v4 _ h4, step_ok, readBytes_append_of_eq magic _ h7, step_ok, if_pos hm]
  · intro v4 junk ft h4 hft
    unfold read_offsets
    rw [readI32_append v4 _ h4, step_ok, @readBytes_append_of_eq 7 relogic _ rfl, step_ok,
      if_neg (by simp), readU8_cons, step_ok, if_pos hft]
  · intro v4 t4 f8 junk np h4 ht4 hf8 hn1 hn2 hn11
    unfold read_offsets
    rw [readI32_append v4 _ h4, step_ok, @readBytes_append_of_eq 7 relogic _ rfl, step_ok,
      if_neg (by simp), readU8_cons, step_ok, if_neg (by simp),
      readU32_append t4 _ ht4, step_ok, readU64_append f8 _ hf8, step_ok,
      readI16_enc np _ hn1 hn2, step_ok, if_pos hn11]
  · intro v4 t4 f8 mask rest o1 o2 o3 o4 o5 o6 o7 o8 o9 o10 o11 n h4 ht4 hf8 hn hm ho
    have r1 := ho o1 (by simp)
    have r2 := ho o2 (by simp)
    have r3 := ho o3 (by simp)
    have r4 := ho o4 (by simp)
    have r5 := ho o5 (by simp)
    have r6 := ho o6 (by simp)
    have r7 := ho o7 (by simp)
    have r8 := ho o8 (by simp)
    have r9 := ho o9 (by simp)
    have r10 := ho o10 (by simp)
    have r11 := ho o11 (by simp)
    unfold read_offsets
    rw [readI32_append v4 _ h4, step_ok, @readBytes_append_of_eq 7 relogic _ rfl, step_ok,
      if_neg (by simp), readU8_cons, step_ok, if_neg (by simp),
      readU32_append t4 _ ht4, step_ok, readU64_append f8 _ hf8, step_ok,
      readI16_enc 11 _ (by norm_num) (by norm_num), step_ok, if_neg (by simp),
      readI32_enc o1 _ r1.1 r1.2, step_ok, readI32_enc o2 _ r2.1 r2.2, step_ok,
      readI32_enc o3 _ r3.1 r3.2, step_ok, readI32_enc o4 _ r4.1 r4.2, step_ok,
      readI32_enc o5 _ r5.1 r5.2, step_ok, readI32_enc o6 _ r6.1 r6.2, step_ok,
      readI32_enc o7 _ r7.1 r7.2, step_ok, readI32_enc o8 _ r8.1 r8.2, step_ok,
      readI32_enc o9 _ r9.1 r9.2, step_ok, readI32_enc o10 _ r10.1 r10.2, step_ok,
      readI32_enc o11 _ r11.1 r11.2, step_ok,
      readI16_enc (n : Int) _ (by omega) (by omega), step_ok]
    have hcast : (((n : Int)) % 18446744073709551616).toNat = n := by omega
    rw [hcast, readBytes_append_of_eq mask _ hm, step_ok]

/-- Witness for c6_read_offsets: concrete instances of all four parts. -/
theorem c6_witness :
    read_offsets ([0, 0, 0, 0] ++ ([0, 0, 0, 0, 0, 0, 0] ++ [])) = .error .notValidMap
    ∧ read_offsets ([0, 0, 0, 0] ++ (relogic ++ (3 :: []))) = .error (.unsupportedFiletype 3)
    ∧ read_offsets ([0, 0, 0, 0] ++ (relogic ++ (2 :: ([0, 0, 0, 0] ++ ([0, 0, 0, 0, 0, 0, 0, 0] ++ (encI16 10 ++ [])))))) = .error (.unsupportedNPointers 10)
    ∧ read_offsets ([0, 0, 0, 0] ++ (relogic ++ (2 :: ([0, 0, 0, 0] ++ ([0, 0, 0, 0, 0, 0, 0, 0] ++ (encI16 11 ++ (encI32 1 ++ (encI32 2 ++ (encI32 3 ++ (encI32 4 ++ (encI32 5 ++ (encI32 6 ++ (encI32 7 ++ (encI32 8 ++ (encI32 9 ++ (encI32 10 ++ (encI32 11 ++ (encI16 ((1 : Nat) : Int) ++ ([255] ++ [42]))))))))))))))))))) = .ok (⟨1, 2, 3, 4, 5, 6, 7, 8, 9, 10, [255]⟩, [42]) := by
  refine ⟨c6_read_offsets.1 [0, 0, 0, 0] [0, 0, 0, 0, 0, 0, 0] [] rfl rfl (by decide), c6_read_offsets.2.1 [0, 0, 0, 0] [] 3 rfl (by decide), c6_read_offsets.2.2.1 [0, 0, 0, 0] [0, 0, 0, 0] [0, 0, 0, 0, 0, 0, 0, 0] [] 10 rfl rfl rfl (by norm_num) (by norm_num) (by norm_num), c6_read_offsets.2.2.2 [0, 0, 0, 0] [0, 0, 0, 0] [0, 0, 0, 0, 0, 0, 0, 0] [255] [42] 1 2 3 4 5 6 7 8 9 10 11 1 rfl rfl rfl (by norm_num) rfl (by norm_num)⟩

theorem writeAt_eq (f b : List Nat) (p : Nat) (hp : p ≤ f.length) : writeAt f p b = f.take p ++ (b ++ f.drop (p + b.length)) := by
  unfold writeAt
  rw [Nat.sub_eq_zero_of_le hp]
  simp

theorem writeAt_length (f b : List Nat) (p : Nat) (hp : p ≤ f.length) : (writeAt f p b).length = max f.length (p + b.length) := by
  rw [writeAt_eq f b p hp]
  simp
  omega

theorem fileSlice_writeAt_inside (f b : List Nat) (p q n : Nat) (hp : p ≤ f.length) (h1 : p ≤ q) (h2 : q + n ≤ p + b.length) : fileSlice (writeAt f p b) q n = fileSlice b (q - p) n := by
  rw [writeAt_eq f b p hp]
  unfold fileSlice
  rw [List.drop_append_eq_append_drop]
  have hlt : (f.take p).length = p := by
    simp
    omega
  rw [hlt]
  have hnil : (f.take p).drop q = [] := List.drop_eq_nil_of_le (by rw [hlt]; omega)
  rw [hnil, List.nil_append, List.drop_append_eq_append_drop, List.take_append_eq_append_take]
  have hbl : (b.drop (q - p)).length = b.length - (q - p) := by simp
  have hn0 : n - (b.drop (q - p)).length = 0 := by rw [hbl]; omega
  rw [hn0, List.take_zero, List.append_nil]

theorem fileSlice_writeAt_before (f b : List Nat) (p q n : Nat) (hp : p ≤ f.length) (hq : q + n ≤ p) : fileSlice (writeAt f p b) q n = fileSlice f q n := by
  rw [writeAt_eq f b p hp]
  unfold fileSlice
  rw [List.drop_append_eq_append_drop, List.take_append_eq_append_take]
  have hl : ((f.take p).drop q).length = p - q := by
    simp
    omega
  have hrest : n - ((f.take p).drop q).length = 0 := by rw [hl]; omega
  rw [hrest, List.take_zero, List.append_nil, List.drop_take, List.take_take]
  congr 1
  omega

theorem fileSlice_writeAt_after (f b : List Nat) (p q n : Nat) (hp : p ≤ f.length) (h : p + b.length ≤ q) : fileSlice (writeAt f p b) q n = fileSlice f q n := by
  rw [writeAt_eq f b p hp]
  unfold fileSlice
  rw [List.drop_append_eq_append_drop]
  have hlt : (f.take p).length = p := by
    simp
    omega
  rw [hlt]
  have hnil : (f.take p).drop q = [] := List.drop_eq_nil_of_le (by rw [hlt]; omega)
  rw [hnil, List.nil_append, List.drop_append_eq_append_drop]
  have h2 : b.drop (q - p) = [] := List.drop_eq_nil_of_le (by omega)
  rw [h2, List.nil_append, List.drop_drop]
  congr 2
  omega

theorem drop_writeAt_after (f b : List Nat) (p q : Nat) (hp : p ≤ f.length) (h : p + b.length ≤ q) : (writeAt f p b).drop q = f.drop q := by
  rw [writeAt_eq f b p hp]
  rw [List.drop_append_eq_append_drop]
  have hlt : (f.take p).length = p := by
    simp
    omega
  rw [hlt]
  have hnil : (f.take p).drop q = [] := List.drop_eq_nil_of_le (by rw [hlt]; omega)
  rw [hnil, List.nil_append, List.drop_append_eq_append_drop]
  have h2 : b.drop (q - p) = [] := List.drop_eq_nil_of_le (by omega)
  rw [h2, List.nil_append, List.drop_drop]
  congr 1
  omega

theorem header_write_length (h : Header) : (header_write h).length = 40 := by
  simp [header_write, encI32_length]

theorem encI32_drop (v : Int) (n : Nat) (h : 4 ≤ n) : (encI32 v).drop n = [] :=
  List.drop_eq_nil_of_le (by rw [encI32_length]; omega)

theorem encI32_take (v : Int) : (encI32 v).take 4 = encI32 v := by
  rw [← encI32_length v]
  exact List.take_length _

theorem header_write_fileSlice (h : Header) :
    fileSlice (header_write h) 0 4 = encI32 h.header
    ∧ fileSlice (header_write h) 4 4 = encI32 h.tiles
    ∧ fileSlice (header_write h) 8 4 = encI32 h.chests
    ∧ fileSlice (header_write h) 12 4 = encI32 h.signs
    ∧ fileSlice (header_write h) 16 4 = encI32 h.npcs
    ∧ fileSlice (header_write h) 20 4 = encI32 h.entities
    ∧ fileSlice (header_write h) 24 4 = encI32 h.footer
    ∧ fileSlice (header_write h) 28 4 = encI32 h.unused_1
    ∧ fileSlice (header_write h) 32 4 = encI32 h.unused_2
    ∧ fileSlice (header_write h) 36 4 = encI32 h.unused_3 := by
  have e4 : ∀ v : Int, (encI32 v).length = 4 := encI32_length
  refine ⟨?_, ?_, ?_, ?_, ?_, ?_, ?_, ?_, ?_, ?_⟩ <;>
    simp [header_write, fileSlice, List.drop_append_eq_append_drop, List.take_append_eq_append_take, e4, encI32_drop, encI32_take]

theorem wrap32_eq (v : Int) (h1 : -2147483648 ≤ v) (h2 : v < 2147483648) : wrap32 v = v := by
  unfold wrap32
  omega

theorem asI32_of_lt (n : Nat) (h : n < 2147483648) : asI32 n = n := by
  unfold asI32
  omega

theorem asI32_leVal_encI32 (v : Int) (h1 : -2147483648 ≤ v) (h2 : v < 2147483648) : asI32 (leVal (encI32 v)) = v := by
  unfold encI32
  rw [leVal_leBytes_four]
  unfold asI32
  omega

theorem write_chests_eq (wf : WorldFile) (chests : List Chest) (hok : (write_chests_inner chests).2 = true) :
    wf.write_chests chests = .ok ⟨writeAt (writeAt (writeAt wf.file (u64_of_i32 wf.header.chests) (write_chests_inner chests).1) (new_signs_nat wf chests) (rest_tail wf)) 26 (header_write (shifted_header wf chests)), shifted_header wf chests⟩ := by
  have hpair : write_chests_inner chests = ((write_chests_inner chests).1, true) := by
    rw [← hok]
  unfold WorldFile.write_chests
  rw [hpair]
  rfl

/-- Claim C2 (amended): after a successful write_chests, the rewritten
offset table at its fixed position holds header, tiles and chests unchanged
and signs, npcs, entities, footer and the three reserved slots each
increased by exactly the section-size delta; the unknown 11th table entry is
not rewritten at all (Header::write emits only ten entries), so its four
bytes keep their previous file content instead of being shifted as the
claim stated. -/
theorem c2_offset_table_shift (wf : WorldFile) (chests : List Chest)
    (hok : (write_chests_inner chests).2 = true)
    (hc70 : 70 ≤ wf.header.chests)
    (hcs : wf.header.chests ≤ wf.header.signs)
    (hsL : wf.header.signs ≤ (wf.file.length : Int))
    (hs31 : wf.header.signs < 2147483648)
    (hns : new_signs_nat wf chests < 2147483648)
    (hh1 : -2147483648 ≤ wf.header.header) (hh2 : wf.header.header < 2147483648)
    (ht1 : -2147483648 ≤ wf.header.tiles) (ht2 : wf.header.tiles < 2147483648)
    (hn1 : -2147483648 ≤ wf.header.npcs + chest_delta wf chests) (hn2 : wf.header.npcs + chest_delta wf chests < 2147483648)
    (he1 : -2147483648 ≤ wf.header.entities + chest_delta wf chests) (he2 : wf.header.entities + chest_delta wf chests < 2147483648)
    (hf1 : -2147483648 ≤ wf.header.footer + chest_delta wf chests) (hf2 : wf.header.footer + chest_delta wf chests < 2147483648)
    (hu1 : -2147483648 ≤ wf.header.unused_1 + chest_delta wf chests) (hu2 : wf.header.unused_1 + chest_delta wf chests < 2147483648)
    (hv1 : -2147483648 ≤ wf.header.unused_2 + chest_delta wf chests) (hv2 : wf.header.unused_2 + chest_delta wf chests < 2147483648)
    (hw1 : -2147483648 ≤ wf.header.unused_3 + chest_delta wf chests) (hw2 : wf.header.unused_3 + chest_delta wf chests < 2147483648) :
    ((wf.write_chests chests).map fun w => readI32At w.file 26) = .ok wf.header.header
    ∧ ((wf.write_chests chests).map fun w => readI32At w.file 30) = .ok wf.header.tiles
    ∧ ((wf.write_chests chests).map fun w => readI32At w.file 34) = .ok wf.header.chests
    ∧ ((wf.write_chests chests).map fun w => readI32At w.file 38) = .ok (wf.header.signs + chest_delta wf chests)
    ∧ ((wf.write_chests chests).map fun w => readI32At w.file 42) = .ok (wf.header.npcs + chest_delta wf chests)
    ∧ ((wf.write_chests chests).map fun w => readI32At w.file 46) = .ok (wf.header.entities + chest_delta wf chests)
    ∧ ((wf.write_chests chests).map fun w => readI32At w.file 50) = .ok (wf.header.footer + chest_delta wf chests)
    ∧ ((wf.write_chests chests).map fun w => readI32At w.file 54) = .ok (wf.header.unused_1 + chest_delta wf chests)
    ∧ ((wf.write_chests chests).map fun w => readI32At w.file 58) = .ok (wf.header.unused_2 + chest_delta wf chests)
    ∧ ((wf.write_chests chests).map fun w => readI32At w.file 62) = .ok (wf.header.unused_3 + chest_delta wf chests)
    ∧ ((wf.write_chests chests).map fun w => fileSlice w.file 66 4) = .ok (fileSlice wf.file 66 4) := by
  have hcNi : ((u64_of_i32 wf.header.chests : Nat) : Int) = wf.header.chests := by
    unfold u64_of_i32
    omega
  have hsNi : ((u64_of_i32 wf.header.signs : Nat) : Int) = wf.header.signs := by
    unfold u64_of_i32
    omega
  have hcNL : u64_of_i32 wf.header.chests ≤ wf.file.length := by omega
  have hdelta : chest_delta wf chests = ((new_signs_nat wf chests : Nat) : Int) - wf.header.signs := rfl
  have hδ : chests_diff wf chests = chest_delta wf chests := by
    unfold chests_diff
    rw [asI32_of_lt _ hns, hdelta]
    exact wrap32_eq _ (by omega) (by omega)
  have hsh_h : (shifted_header wf chests).header = wf.header.header := rfl
  have hsh_t : (shifted_header wf chests).tiles = wf.header.tiles := rfl
  have hsh_c : (shifted_header wf chests).chests = wf.header.chests := rfl
  have hsh_s : (shifted_header wf chests).signs = wf.header.signs + chest_delta wf chests := by
    show wrap32 (wf.header.signs + chests_diff wf chests) = _
    rw [hδ]
    exact wrap32_eq _ (by omega) (by omega)
  have hsh_n : (shifted_header wf chests).npcs = wf.header.npcs + chest_delta wf chests := by
    show wrap32 (wf.header.npcs + chests_diff wf chests) = _
    rw [hδ]
    exact wrap32_eq _ hn1 hn2
  have hsh_e : (shifted_header wf chests).entities = wf.header.entities + chest_delta wf chests := by
    show wrap32 (wf.header.entities + chests_diff wf chests) = _
    rw [hδ]
    exact wrap32_eq _ he1 he2
  have hsh_f : (shifted_header wf chests).footer = wf.header.footer + chest_delta wf chests := by
    show wrap32 (wf.header.footer + chests_diff wf chests) = _
    rw [hδ]
    exact wrap32_eq _ hf1 hf2
  have hsh_u1 : (shifted_header wf chests).unused_1 = wf.header.unused_1 + chest_delta wf chests := by
    show wrap32 (wf.header.unused_1 + chests_diff wf chests) = _
    rw [hδ]
    exact wrap32_eq _ hu1 hu2
  have hsh_u2 : (shifted_header wf chests).unused_2 = wf.header.unused_2 + chest_delta wf chests := by
    show wrap32 (wf.header.unused_2 + chests_diff wf chests) = _
    rw [hδ]
    exact wrap32_eq _ hv1 hv2
  have hsh_u3 : (shifted_header wf chests).unused_3 = wf.header.unused_3 + chest_delta wf chests := by
    show wrap32 (wf.header.unused_3 + chests_diff wf chests) = _
    rw [hδ]
    exact wrap32_eq _ hw1 hw2
  rw [write_chests_eq wf chests hok]
  simp only [Except.map]
  set B := (write_chests_inner chests).1 with hB
  set cN := u64_of_i32 wf.header.chests with hcN
  set ns := new_signs_nat wf chests with hnsd
  set tl := rest_tail wf with htl
  set sh := shifted_header wf chests with hshd
  set hdb := header_write sh with hhdb
  set f1 := writeAt wf.file cN B with hf1d
  set f2 := writeAt f1 ns tl with hf2d
  set f3 := writeAt f2 26 hdb with hf3d
  have hns_eq : ns = cN + B.length := rfl
  have hf1len : f1.length = max wf.file.length (cN + B.length) := writeAt_length _ _ _ hcNL
  have hnsf1 : ns ≤ f1.length := by
    rw [hf1len, hns_eq]
    omega
  have hL70 : 70 ≤ wf.file.length := by omega
  have hf2len : f2.length = max f1.length (ns + tl.length) := writeAt_length _ _ _ hnsf1
  have hf2ge : 70 ≤ f2.length := by
    rw [hf2len, hf1len]
    omega
  have hdb40 : hdb.length = 40 := header_write_length sh
  have hcn70 : 70 ≤ cN := by omega
  have hns70 : 70 ≤ ns := by
    rw [hns_eq]
    omega
  have hsl : ∀ q n2, 26 ≤ q → q + n2 ≤ 66 → fileSlice f3 q n2 = fileSlice hdb (q - 26) n2 := by
    intro q n2 hq1 hq2
    exact fileSlice_writeAt_inside f2 hdb 26 q n2 (by omega) hq1 (by rw [hdb40]; omega)
  have h66 : fileSlice f3 66 4 = fileSlice wf.file 66 4 := by
    rw [fileSlice_writeAt_after f2 hdb 26 66 4 (by omega) (by rw [hdb40]),
      fileSlice_writeAt_before f1 tl ns 66 4 hnsf1 (by omega),
      fileSlice_writeAt_before wf.file B cN 66 4 hcNL (by omega)]
  have hwsl := header_write_fileSlice sh
  refine ⟨?_, ?_, ?_, ?_, ?_, ?_, ?_, ?_, ?_, ?_, ?_⟩
  · unfold readI32At
    rw [hsl 26 4 (by omega) (by omega)]
    norm_num
    rw [hwsl.1, asI32_leVal_encI32 _ (by rw [hsh_h]; exact hh1) (by rw [hsh_h]; exact hh2), hsh_h]
  · unfold readI32At
    rw [hsl 30 4 (by omega) (by omega)]
    norm_num
    rw [hwsl.2.1, asI32_leVal_encI32 _ (by rw [hsh_t]; exact ht1) (by rw [hsh_t]; exact ht2), hsh_t]
  · unfold readI32At
    rw [hsl 34 4 (by omega) (by omega)]
    norm_num
    rw [hwsl.2.2.1, asI32_leVal_encI32 _ (by rw [hsh_c]; omega) (by rw [hsh_c]; omega), hsh_c]
  · unfold readI32At
    rw [hsl 38 4 (by omega) (by omega)]
    norm_num
    rw [hwsl.2.2.2.1, asI32_leVal_encI32 _ (by rw [hsh_s, hdelta]; omega) (by rw [hsh_s, hdelta]; omega), hsh_s]
  · unfold readI32At
    rw [hsl 42 4 (by omega) (by omega)]
    norm_num
    rw [hwsl.2.2.2.2.1, asI32_leVal_encI32 _ (by rw [hsh_n]; exact hn1) (by rw [hsh_n]; exact hn2), hsh_n]
  · unfold readI32At
    rw [hsl 46 4 (by omega) (by omega)]
    norm_num
    rw [hwsl.2.2.2.2.2.1, asI32_leVal_encI32 _ (by rw [hsh_e]; exact he1) (by rw [hsh_e]; exact he2), hsh_e]
  · unfold readI32At
    rw [hsl 50 4 (by omega) (by omega)]
    norm_num
    rw [hwsl.2.2.2.2.2.2.1, asI32_leVal_encI32 _ (by rw [hsh_f]; exact hf1) (by rw [hsh_f]; exact hf2), hsh_f]
  · unfold readI32At
    rw [hsl 54 4 (by omega) (by omega)]
    norm_num
    rw [hwsl.2.2.2.2.2.2.2.1, asI32_leVal_encI32 _ (by rw [hsh_u1]; exact hu1) (by rw [hsh_u1]; exact hu2), hsh_u1]
  · unfold readI32At
    rw [hsl 58 4 (by omega) (by omega)]
    norm_num
    rw [hwsl.2.2.2.2.2.2.2.2.1, asI32_leVal_encI32 _ (by rw [hsh_u2]; exact hv1) (by rw [hsh_u2]; exact hv2), hsh_u2]
  · unfold readI32At
    rw [hsl 62 4 (by omega) (by omega)]
    norm_num
    rw [hwsl.2.2.2.2.2.2.2.2.2, asI32_leVal_encI32 _ (by rw [hsh_u3]; exact hw1) (by rw [hsh_u3]; exact hw2), hsh_u3]
  · rw [h66]

/-- Claim C4 (amended): when the new chest section is smaller than the old
one, write_chests does not truncate the file: the file keeps its old length,
the tail is written back verbatim at the new signs offset, and every byte
beyond the end of the restored tail keeps the old file's content (stale
bytes remain past the tail). -/
theorem c4_no_truncation (wf : WorldFile) (chests : List Chest)
    (hok : (write_chests_inner chests).2 = true)
    (hc70 : 70 ≤ wf.header.chests)
    (hcs : wf.header.chests ≤ wf.header.signs)
    (hsL : wf.header.signs ≤ (wf.file.length : Int))
    (hs31 : wf.header.signs < 2147483648)
    (hsmall : ((new_signs_nat wf chests : Nat) : Int) < wf.header.signs) :
    ((wf.write_chests chests).map fun w => w.file.length) = .ok wf.file.length
    ∧ ((wf.write_chests chests).map fun w => fileSlice w.file (new_signs_nat wf chests) ((rest_tail wf).length)) = .ok (rest_tail wf)
    ∧ ((wf.write_chests chests).map fun w => w.file.drop (new_signs_nat wf chests + (rest_tail wf).length)) = .ok (wf.file.drop (new_signs_nat wf chests + (rest_tail wf).length)) := by
  have hcNi : ((u64_of_i32 wf.header.chests : Nat) : Int) = wf.header.chests := by
    unfold u64_of_i32
    omega
  have hsNi : ((u64_of_i32 wf.header.signs : Nat) : Int) = wf.header.signs := by
    unfold u64_of_i32
    omega
  have hcNL : u64_of_i32 wf.header.chests ≤ wf.file.length := by omega
  rw [write_chests_eq wf chests hok]
  simp only [Except.map]
  set B := (write_chests_inner chests).1 with hB
  set cN := u64_of_i32 wf.header.chests with hcN
  set sN := u64_of_i32 wf.header.signs with hsN
  set ns := new_signs_nat wf chests with hnsd
  set tl := rest_tail wf with htl
  set sh := shifted_header wf chests with hshd
  set hdb := header_write sh with hhdb
  set f1 := writeAt wf.file cN B with hf1d
  set f2 := writeAt f1 ns tl with hf2d
  set f3 := writeAt f2 26 hdb with hf3d
  have hns_eq : ns = cN + B.length := rfl
  have htllen : tl.length = wf.file.length - sN := by
    rw [htl]
    unfold rest_tail
    simp
  have hnsS : ns < sN := by omega
  have hSL : sN ≤ wf.file.length := by omega
  have hcn70 : 70 ≤ cN := by omega
  have hns70 : 70 ≤ ns := by
    rw [hns_eq]
    omega
  have hL70 : 70 ≤ wf.file.length := by omega
  have hf1len : f1.length = wf.file.length := by
    rw [writeAt_length _ _ _ hcNL]
    omega
  have hnsf1 : ns ≤ f1.length := by omega
  have hf2len : f2.length = wf.file.length := by
    rw [writeAt_length _ _ _ hnsf1, hf1len]
    omega
  have hdb40 : hdb.length = 40 := header_write_length sh
  have hf3len : f3.length = wf.file.length := by
    rw [writeAt_length _ _ _ (by omega), hdb40, hf2len]
    omega
  refine ⟨by rw [hf3len], ?_, ?_⟩
  · have h1 : fileSlice f3 ns tl.length = fileSlice f2 ns tl.length :=
      fileSlice_writeAt_after f2 hdb 26 ns tl.length (by omega) (by rw [hdb40]; omega)
    have h2 : fileSlice f2 ns tl.length = fileSlice tl (ns - ns) tl.length :=
      fileSlice_writeAt_inside f1 tl ns ns tl.length hnsf1 (le_refl ns) (by omega)
    rw [h1, h2, Nat.sub_self]
    unfold fileSlice
    rw [List.drop_zero, List.take_length]
  · have h1 : f3.drop (ns + tl.length) = f2.drop (ns + tl.length) :=
      drop_writeAt_after f2 hdb 26 (ns + tl.length) (by omega) (by rw [hdb40]; omega)
    have h2 : f2.drop (ns + tl.length) = f1.drop (ns + tl.length) :=
      drop_writeAt_after f1 tl ns (ns + tl.length) hnsf1 (le_refl _)
    have h3 : f1.drop (ns + tl.length) = wf.file.drop (ns + tl.length) :=
      drop_writeAt_after wf.file B cN (ns + tl.length) hcNL (by omega)
    rw [h1, h2, h3]

/-- Claim C2, counterexample: in the 80-byte file cwf the chest section
shrinks by one byte (delta is minus one).  The 11th table entry held 99
before the rewrite and still decodes to 99 afterwards instead of the
99 + delta = 98 the claim requires. -/
theorem c2_counterexample :
    readI32At cwf.file 66 = 99
    ∧ ((cwf.write_chests []).map fun w => readI32At w.file 66) = .ok 99
    ∧ chest_delta cwf [] = -1
    ∧ (99 : Int) ≠ 99 + (-1) := by
  refine ⟨by decide, by rfl, by decide, by decide⟩

/-- Witness for c2_offset_table_shift, at the concrete file cwf with an
empty chest list. -/
theorem c2_witness :
    ((cwf.write_chests []).map fun w => readI32At w.file 26) = .ok cwf.header.header
    ∧ ((cwf.write_chests []).map fun w => readI32At w.file 30) = .ok cwf.header.tiles
    ∧ ((cwf.write_chests []).map fun w => readI32At w.file 34) = .ok cwf.header.chests
    ∧ ((cwf.write_chests []).map fun w => readI32At w.file 38) = .ok (cwf.header.signs + chest_delta cwf [])
    ∧ ((cwf.write_chests []).map fun w => readI32At w.file 42) = .ok (cwf.header.npcs + chest_delta cwf [])
    ∧ ((cwf.write_chests []).map fun w => readI32At w.file 46) = .ok (cwf.header.entities + chest_delta cwf [])
    ∧ ((cwf.write_chests []).map fun w => readI32At w.file 50) = .ok (cwf.header.footer + chest_delta cwf [])
    ∧ ((cwf.write_chests []).map fun w => readI32At w.file 54) = .ok (cwf.header.unused_1 + chest_delta cwf [])
    ∧ ((cwf.write_chests []).map fun w => readI32At w.file 58) = .ok (cwf.header.unused_2 + chest_delta cwf [])
    ∧ ((cwf.write_chests []).map fun w => readI32At w.file 62) = .ok (cwf.header.unused_3 + chest_delta cwf [])
    ∧ ((cwf.write_chests []).map fun w => fileSlice w.file 66 4) = .ok (fileSlice cwf.file 66 4) :=
  c2_offset_table_shift cwf [] (by decide) (by decide) (by decide) (by decide) (by decide) (by decide) (by decide) (by decide) (by decide) (by decide) (by decide) (by decide) (by decide) (by decide) (by decide) (by decide) (by decide) (by decide) (by decide) (by decide) (by decide) (by decide)

/-- Claim C4, counterexample: for the same shrinking rewrite the claim
demands a truncated file of length new_signs_offset plus tail length, which
is 79 here; the file instead keeps length 80 and the stale last byte of the
old file remains past the restored tail. -/
theorem c4_counterexample :
    ((cwf.write_chests []).map fun w => w.file.length) = .ok 80
    ∧ new_signs_nat cwf [] + (rest_tail cwf).length = 79
    ∧ (80 : Nat) ≠ 79
    ∧ ((cwf.write_chests []).map fun w => w.file.drop 79) = .ok [9] := by
  refine ⟨by rfl, by decide, by decide, by rfl⟩

/-- Witness for c4_no_truncation at the concrete file cwf with an empty
chest list (the section shrinks from five to four bytes). -/
theorem c4_witness :
    ((cwf.write_chests []).map fun w => w.file.length) = .ok cwf.file.length
    ∧ ((cwf.write_chests []).map fun w => fileSlice w.file (new_signs_nat cwf []) ((rest_tail cwf).length)) = .ok (rest_tail cwf)
    ∧ ((cwf.write_chests []).map fun w => w.file.drop (new_signs_nat cwf [] + (rest_tail cwf).length)) = .ok (cwf.file.drop (new_signs_nat cwf [] + (rest_tail cwf).length)) :=
  c4_no_truncation cwf [] (by decide) (by decide) (by decide) (by decide) (by decide) (by decide)

theorem readTilesAux_zero (tfi : List Nat) (s : List Nat) (i len : Nat) : readTilesAux tfi 0 s i len = .ok ([], 0) := rfl

theorem readTilesAux_succ_of_ge (tfi : List Nat) (fuel : Nat) (s : List Nat) (i len : Nat) (h : ¬ i < len) : readTilesAux tfi (fuel + 1) s i len = .ok ([], 0) := by
  unfold readTilesAux
  rw [if_neg h]

theorem readTilesAux_succ_of_err_rec (tfi : List Nat) (fuel : Nat) (s : List Nat) (i len : Nat) (e : WldError) (hil : i < len) (hrec : readRecord tfi s = .error e) : readTilesAux tfi (fuel + 1) s i len = .error e := by
  unfold readTilesAux
  rw [if_pos hil, hrec]

theorem readTilesAux_succ_of_err_in (tfi : List Nat) (fuel : Nat) (s : List Nat) (i len : Nat) (front : Option (Nat × Option TileFrameOffset)) (rle : Nat) (rest : List Nat) (e : WldError) (hil : i < len) (hrec : readRecord tfi s = .ok (front, rle, rest)) (hin : readTilesAux tfi fuel rest (i + rle + 1) len = .error e) : readTilesAux tfi (fuel + 1) s i len = .error e := by
  unfold readTilesAux
  rw [if_pos hil, hrec]
  show (match readTilesAux tfi fuel rest (i + rle + 1) len with
    | Except.error e2 => Except.error e2
    | Except.ok (tr, n) =>
      Except.ok ((match front with
        | some t => (t.1, i, t.2) :: tr
        | none => tr), n + 1)) = Except.error e
  rw [hin]

theorem readTilesAux_succ_of_ok_some (tfi : List Nat) (fuel : Nat) (s : List Nat) (i len : Nat) (t : Nat × Option TileFrameOffset) (rle : Nat) (rest : List Nat) (tr : List (Nat × Nat × Option TileFrameOffset)) (n : Nat) (hil : i < len) (hrec : readRecord tfi s = .ok (some t, rle, rest)) (hin : readTilesAux tfi fuel rest (i + rle + 1) len = .ok (tr, n)) : readTilesAux tfi (fuel + 1) s i len = .ok ((t.1, i, t.2) :: tr, n + 1) := by
  unfold readTilesAux
  rw [if_pos hil, hrec]
  show (match readTilesAux tfi fuel rest (i + rle + 1) len with
    | Except.error e2 => Except.error e2
    | Except.ok (tr2, n2) => Except.ok ((t.1, i, t.2) :: tr2, n2 + 1)) = Except.ok ((t.1, i, t.2) :: tr, n + 1)
  rw [hin]

theorem readTilesAux_succ_of_ok_none (tfi : List Nat) (fuel : Nat) (s : List Nat) (i len : Nat) (rle : Nat) (rest : List Nat) (tr : List (Nat × Nat × Option TileFrameOffset)) (n : Nat) (hil : i < len) (hrec : readRecord tfi s = .ok (none, rle, rest)) (hin : readTilesAux tfi fuel rest (i + rle + 1) len = .ok (tr, n)) : readTilesAux tfi (fuel + 1) s i len = .ok (tr, n + 1) := by
  unfold readTilesAux
  rw [if_pos hil, hrec]
  show (match readTilesAux tfi fuel rest (i + rle + 1) len with
    | Except.error e2 => Except.error e2
    | Except.ok (tr2, n2) => Except.ok (tr2, n2 + 1)) = Except.ok (tr, n + 1)
  rw [hin]

/-- Claim C1 (amended): for every on-disk record decoded by the read_tiles
loop with repeat count rle (0 when no RLE flag is set), the callback is
invoked exactly once when a front tile is present — with the decoded values
at the current cell index — and zero times when the front tile is absent;
in both cases the cell cursor advances by rle + 1.  It is never invoked
rle + 1 times per record, as c1_counterexample shows. -/
theorem c1_single_callback :
    (∀ tfi : List Nat, ∀ fuel : Nat, ∀ s : List Nat, ∀ i len : Nat, ∀ t : Nat × Option TileFrameOffset, ∀ rle : Nat, ∀ rest : List Nat, ∀ tr : List (Nat × Nat × Option TileFrameOffset), ∀ n : Nat,
      i < len → readRecord tfi s = .ok (some t, rle, rest) → readTilesAux tfi fuel rest (i + rle + 1) len = .ok (tr, n) →
      readTilesAux tfi (fuel + 1) s i len = .ok ((t.1, i, t.2) :: tr, n + 1))
    ∧ (∀ tfi : List Nat, ∀ fuel : Nat, ∀ s : List Nat, ∀ i len : Nat, ∀ rle : Nat, ∀ rest : List Nat, ∀ tr : List (Nat × Nat × Option TileFrameOffset), ∀ n : Nat,
      i < len → readRecord tfi s = .ok (none, rle, rest) → readTilesAux tfi fuel rest (i + rle + 1) len = .ok (tr, n) →
      readTilesAux tfi (fuel + 1) s i len = .ok (tr, n + 1)) := by
  constructor
  · intro tfi fuel s i len t rle rest tr n hil hrec hin
    exact readTilesAux_succ_of_ok_some tfi fuel s i len t rle rest tr n hil hrec hin
  · intro tfi fuel s i len rle rest tr n hil hrec hin
    exact readTilesAux_succ_of_ok_none tfi fuel s i len rle rest tr n hil hrec hin

/-- Claim C1, counterexample: the stream 66, 5, 1 holds one record (flags
bit 1 front present, bit 6 RLE, tile id 5, repeat count r = 1) in a 1 by 2
grid; the claim demands r + 1 = 2 callback invocations for it, but the
decoder makes exactly one, at cell 0 only. -/
theorem c1_counterexample :
    read_tiles [0] [66, 5, 1] 1 2 = .ok ([(5, 0, none)], 1)
    ∧ ((read_tiles [0] [66, 5, 1] 1 2).map fun p => p.1.length) = .ok 1
    ∧ (1 : Nat) ≠ 1 + 1 := by
  refine ⟨by rfl, by rfl, by decide⟩

/-- Witness for c1_single_callback: the record of the counterexample stream
feeds the callback once and advances the cursor by two. -/
theorem c1_witness : readTilesAux [0] 2 [66, 5, 1] 0 2 = .ok ([(5, 0, none)], 0 + 1) :=
  c1_single_callback.1 [0] 1 [66, 5, 1] 0 2 (5, none) 1 [] [] 0 (by decide) (by rfl) (by rfl)

/-- Claim C10 (confirmed): the record count of every successful readTilesAux
run from cursor i is at most len minus i, because every record advances the
cursor by rle + 1 which is at least 1; consequently the loop result is the
same for every iteration bound of at least len minus i (the loop
terminates within that many iterations), and a full read_tiles pass over a
w by h grid processes at most w * h on-disk records. -/
theorem c10_loop_bound :
    (∀ fuel : Nat, ∀ tfi s : List Nat, ∀ i len : Nat, ∀ tr : List (Nat × Nat × Option TileFrameOffset), ∀ n : Nat,
      readTilesAux tfi fuel s i len = .ok (tr, n) → n ≤ len - i)
    ∧ (∀ fuel1 fuel2 : Nat, ∀ tfi s : List Nat, ∀ i len : Nat, len - i ≤ fuel1 → len - i ≤ fuel2 →
      readTilesAux tfi fuel1 s i len = readTilesAux tfi fuel2 s i len)
    ∧ (∀ tfi s : List Nat, ∀ w h : Nat, ∀ tr : List (Nat × Nat × Option TileFrameOffset), ∀ n : Nat,
      read_tiles tfi s w h = .ok (tr, n) → n ≤ w * h) := by
  have p1 : ∀ fuel : Nat, ∀ tfi s : List Nat, ∀ i len : Nat, ∀ tr : List (Nat × Nat × Option TileFrameOffset), ∀ n : Nat,
      readTilesAux tfi fuel s i len = .ok (tr, n) → n ≤ len - i := by
    intro fuel
    induction fuel with
    | zero =>
      intro tfi s i len tr n h
      rw [readTilesAux_zero] at h
      simp at h
      omega
    | succ f ih =>
      intro tfi s i len tr n h
      by_cases hil : i < len
      · match hr : readRecord tfi s with
        | .error e =>
          rw [readTilesAux_succ_of_err_rec tfi f s i len e hil hr] at h
          simp at h
        | .ok (front, rle, rest) =>
          match hin : readTilesAux tfi f rest (i + rle + 1) len with
          | .error e =>
            rw [readTilesAux_succ_of_err_in tfi f s i len front rle rest e hil hr hin] at h
            simp at h
          | .ok (tr2, n2) =>
            have hb := ih tfi rest (i + rle + 1) len tr2 n2 hin
            match front with
            | some t =>
              rw [readTilesAux_succ_of_ok_some tfi f s i len t rle rest tr2 n2 hil hr hin] at h
              simp only [Except.ok.injEq, Prod.mk.injEq] at h
              omega
            | none =>
              rw [readTilesAux_succ_of_ok_none tfi f s i len rle rest tr2 n2 hil hr hin] at h
              simp only [Except.ok.injEq, Prod.mk.injEq] at h
              omega
      · rw [readTilesAux_succ_of_ge tfi f s i len hil] at h
        simp at h
        omega
  have p2 : ∀ fuel1 fuel2 : Nat, ∀ tfi s : List Nat, ∀ i len : Nat, len - i ≤ fuel1 → len - i ≤ fuel2 →
      readTilesAux tfi fuel1 s i len = readTilesAux tfi fuel2 s i len := by
    intro fuel1
    induction fuel1 with
    | zero =>
      intro fuel2 tfi s i len h1 h2
      have hge : ¬ i < len := by omega
      rw [readTilesAux_zero]
      match fuel2 with
      | 0 => rw [readTilesAux_zero]
      | f2 + 1 => rw [readTilesAux_succ_of_ge tfi f2 s i len hge]
    | succ f1 ih =>
      intro fuel2 tfi s i len h1 h2
      match fuel2 with
      | 0 =>
        have hge : ¬ i < len := by omega
        rw [readTilesAux_zero, readTilesAux_succ_of_ge tfi f1 s i len hge]
      | f2 + 1 =>
        by_cases hil : i < len
        · match hr : readRecord tfi s with
          | .error e =>
            rw [readTilesAux_succ_of_err_rec tfi f1 s i len e hil hr,
              readTilesAux_succ_of_err_rec tfi f2 s i len e hil hr]
          | .ok (front, rle, rest) =>
            have heq := ih f2 tfi rest (i + rle + 1) len (by omega) (by omega)
            match hin : readTilesAux tfi f1 rest (i + rle + 1) len with
            | .error e =>
              rw [readTilesAux_succ_of_err_in tfi f1 s i len front rle rest e hil hr hin,
                readTilesAux_succ_of_err_in tfi f2 s i len front rle rest e hil hr (by rw [← heq]; exact hin)]
            | .ok (tr2, n2) =>
              match front with
              | some t =>
                rw [readTilesAux_succ_of_ok_some tfi f1 s i len t rle rest tr2 n2 hil hr hin,
                  readTilesAux_succ_of_ok_some tfi f2 s i len t rle rest tr2 n2 hil hr (by rw [← heq]; exact hin)]
              | none =>
                rw [readTilesAux_succ_of_ok_none tfi f1 s i len rle rest tr2 n2 hil hr hin,
                  readTilesAux_succ_of_ok_none tfi f2 s i len rle rest tr2 n2 hil hr (by rw [← heq]; exact hin)]
        · rw [readTilesAux_succ_of_ge tfi f1 s i len hil, readTilesAux_succ_of_ge tfi f2 s i len hil]
  refine ⟨p1, p2, ?_⟩
  intro tfi s w h tr n hrd
  have := p1 (w * h) tfi s 0 (w * h) tr n hrd
  omega

/-- Witness for c10_loop_bound at the counterexample stream: one record is
processed, within the bound of two cells, and the loop result is the same
with any larger iteration bound. -/
theorem c10_witness :
    (1 : Nat) ≤ 2 - 0
    ∧ readTilesAux [0] 2 [66, 5, 1] 0 2 = readTilesAux [0] 7 [66, 5, 1] 0 2
    ∧ (1 : Nat) ≤ 1 * 2 :=
  ⟨c10_loop_bound.1 2 [0] [66, 5, 1] 0 2 [(5, 0, none)] 1 (by rfl),
    c10_loop_bound.2.1 2 7 [0] [66, 5, 1] 0 2 (by decide) (by decide),
    c10_loop_bound.2.2 [0] [66, 5, 1] 1 2 [(5, 0, none)] 1 (by rfl)⟩

/-- Claim C7 (amended): the frame-x lookup is total and maps exactly the
nineteen known offsets to their variants and every other value to
UnknownChest with that value; for a decoded tile with id 21 that carries a
frame offset, a zero frame-y inserts the looked-up type and a nonzero
frame-y inserts nothing, and a tile with id 88 carrying a frame offset
inserts UnknownDresser unconditionally.  But the pass as a whole is not
total: a decoded tile with id 21 or 88 and no frame offset (its bit unset
in tile_frame_important) makes the callback panic, as c7_counterexample
shows on a concrete stream. -/
theorem c7_classifier :
    (ChestType.from_frame_x 0 = .Plain ∧ ChestType.from_frame_x 36 = .Gold ∧ ChestType.from_frame_x 72 = .LockedGold ∧ ChestType.from_frame_x 144 = .LockedShadow ∧ ChestType.from_frame_x 288 = .RichMahogany ∧ ChestType.from_frame_x 360 = .Ivy ∧ ChestType.from_frame_x 396 = .Ice ∧ ChestType.from_frame_x 468 = .Skyware ∧ ChestType.from_frame_x 540 = .WebCovered ∧ ChestType.from_frame_x 576 = .Lihzahrd ∧ ChestType.from_frame_x 612 = .Water ∧ ChestType.from_frame_x 828 = .LockedJungle ∧ ChestType.from_frame_x 864 = .LockedCorruption ∧ ChestType.from_frame_x 900 = .LockedCrimson ∧ ChestType.from_frame_x 936 = .LockedHallowed ∧ ChestType.from_frame_x 972 = .LockedFrozen ∧ ChestType.from_frame_x 1152 = .Mushroom ∧ ChestType.from_frame_x 1800 = .Granite ∧ ChestType.from_frame_x 1836 = .Marble)
    ∧ (∀ x : Int, x ∉ knownFrameX → ChestType.from_frame_x x = .UnknownChest x)
    ∧ (∀ h : Nat, ∀ m : List ((Nat × Nat) × ChestType), ∀ i : Nat, ∀ tfo : TileFrameOffset, 0 < h →
        (tfo.y = 0 → chest_callback h m (21, i, some tfo) = .ok (((i / h % 65536, i % h % 65536), ChestType.from_frame_x tfo.x) :: m))
        ∧ (tfo.y ≠ 0 → chest_callback h m (21, i, some tfo) = .ok m)
        ∧ chest_callback h m (88, i, some tfo) = .ok (((i / h % 65536, i % h % 65536), ChestType.UnknownDresser tfo.x) :: m))
    ∧ (∀ h : Nat, ∀ m : List ((Nat × Nat) × ChestType), ∀ i : Nat,
        chest_callback h m (21, i, none) = .error .panic ∧ chest_callback h m (88, i, none) = .error .panic) := by
  refine ⟨⟨rfl, rfl, rfl, rfl, rfl, rfl, rfl, rfl, rfl, rfl, rfl, rfl, rfl, rfl, rfl, rfl, rfl, rfl, rfl⟩, ?_, ?_, ?_⟩
  · intro x hx
    simp only [knownFrameX, List.mem_cons, List.not_mem_nil, or_false, not_or] at hx
    obtain ⟨g0, g36, g72, g144, g288, g360, g396, g468, g540, g576, g612, g828, g864, g900, g936, g972, g1152, g1800, g1836⟩ := hx
    simp [ChestType.from_frame_x, g0, g36, g72, g144, g288, g360, g396, g468, g540, g576, g612, g828, g864, g900, g936, g972, g1152, g1800, g1836]
  · intro h m i tfo hh
    refine ⟨?_, ?_, ?_⟩
    · intro hy
      simp [chest_callback, hy]
    · intro hy
      simp [chest_callback, hy]
    · simp [chest_callback]
  · intro h m i
    exact ⟨rfl, rfl⟩

/-- Claim C7, counterexample: a 1 by 1 world whose frame-important bitmask
has bit 21 unset and whose single record is a chest tile (id 21): the tile
decodes with no frame offset and load_chest_types panics on the unwrap, so
the pass is not total and can fail. -/
theorem c7_counterexample : load_chest_types [2, 21] 1 1 [0, 0, 0] = .error .panic := by rfl

/-- Witness for c7_classifier: the unknown offset 999, both id-21 cases and
the dresser case at concrete values, and the two panic cases. -/
theorem c7_witness :
    ChestType.from_frame_x 999 = .UnknownChest 999
    ∧ chest_callback 1 [] (21, 5, some ⟨36, 0⟩) = .ok [((5 / 1 % 65536, 5 % 1 % 65536), ChestType.from_frame_x 36)]
    ∧ chest_callback 1 [] (21, 5, some ⟨36, 18⟩) = .ok []
    ∧ chest_callback 1 [] (88, 5, some ⟨3, 0⟩) = .ok [((5 / 1 % 65536, 5 % 1 % 65536), ChestType.UnknownDresser 3)]
    ∧ chest_callback 1 [] (21, 0, none) = .error .panic :=
  ⟨c7_classifier.2.1 999 (by decide),
    (c7_classifier.2.2.1 1 [] 5 ⟨36, 0⟩ (by decide)).1 rfl,
    (c7_classifier.2.2.1 1 [] 5 ⟨36, 18⟩ (by decide)).2.1 (by decide),
    (c7_classifier.2.2.1 1 [] 5 ⟨3, 0⟩ (by decide)).2.2,
    (c7_classifier.2.2.2 1 [] 0).1⟩

